import Mathlib

/-!
Shallow embedding of the Commands→Actions compiler core of the
ElectrifyAI schematic copilot backend:

* `backend/src/ecop_schematic_copilot/domain/models_commands.py`,
  `models_actions.py`, `models_snapshot.py` — data model;
* `backend/src/ecop_schematic_copilot/compile/validate.py` — validator;
* `backend/src/ecop_schematic_copilot/compile/compiler.py` — compiler;
* `backend/src/ecop_schematic_copilot/compile/placement.py` and
  `backend/src/layout/placer.py` — placement engine.

Python floats are modelled as rationals (all coordinates exercised here are
exactly representable), Python dicts as insertion-ordered association lists
(`updA` mirrors dict assignment: update-in-place on an existing key, append
otherwise), Python sets as lists used only through membership / add /
discard.  Code that can raise (the validator's `cmd.args.args.pin`
attribute access) is modelled in the `Except PyError` monad.
-/

namespace ElectrifyAI

/-- First-match lookup in an association list (Python `dict.get` on the
insertion-ordered maps maintained below, whose keys are kept unique). -/
def lookupA {α : Type} (m : List (String × α)) (k : String) : Option α :=
  match m with
  | [] => none
  | (k2, v) :: rest => if k = k2 then some v else lookupA rest k

/-- Python `d[k] = v` on an insertion-ordered dict: overwrite in place if
the key exists (keys are unique in every map built here), append
otherwise. -/
def updA {α : Type} : List (String × α) → String → α → List (String × α)
  | [], k, v => [(k, v)]
  | (k2, v2) :: rest, k, v =>
    if k2 = k then (k, v) :: rest else (k2, v2) :: updA rest k v

/-- Python `d1.update(d2)`: assign every entry of `d2` into `d1` in order. -/
def updAll {α : Type} (m1 m2 : List (String × α)) : List (String × α) :=
  m2.foldl (fun acc p => updA acc p.1 p.2) m1

/-- Python `set.add` (sets are modelled as duplicate-free lists; only
membership is ever observed). -/
def addS (s : List String) (x : String) : List String :=
  if x ∈ s then s else s ++ [x]

/-- Python `set.discard`. -/
def discardS (s : List String) (x : String) : List String :=
  s.filter (fun y => y ≠ x)

/-- `layer` field: `Literal["Top", "Bottom"]`. -/
inductive Layer
  | Top
  | Bottom
deriving DecidableEq, Repr

/-- `models_snapshot.Placement` (also used for the placer's `Placement`,
whose string layer `"Top"` is modelled as `Layer.Top`). -/
structure Placement where
  x : ℚ
  y : ℚ
  rotation : ℚ := 0
  layer : Layer := Layer.Top
deriving DecidableEq, Repr

/-- `models_snapshot.NetConnection`. -/
structure NetConnection where
  refdes : String
  pin : String
deriving DecidableEq, Repr

/-- `models_snapshot.SnapshotComponent` (extra fields tolerated by pydantic
are irrelevant to the validated/compiled behaviour and are not modelled). -/
structure SnapshotComponent where
  refdes : String
  part_id : Option String := none
  value : Option String := none
  pins : List String := []
  placement : Option Placement := none
deriving DecidableEq, Repr

/-- `models_snapshot.SnapshotNet`. -/
structure SnapshotNet where
  net_name : String
  connections : List NetConnection := []
deriving DecidableEq, Repr

/-- `models_snapshot.SnapshotDoc`. -/
structure SnapshotDoc where
  components : List SnapshotComponent := []
  nets : List SnapshotNet := []
deriving DecidableEq, Repr

/-- `snapshot_component_map`: dict comprehension `{comp.refdes: comp}` —
first-occurrence position, last value wins on duplicate refdes. -/
def snapshot_component_map (snapshot : SnapshotDoc) :
    List (String × SnapshotComponent) :=
  snapshot.components.foldl (fun acc comp => updA acc comp.refdes comp) []

/-- A catalog entry as the validator and compiler read it:
`parts_by_id[part_id].get("pins", [])`, `.get("set_value", False)`,
`.get("fusion_add")` (`none` = key absent). -/
structure CatalogEntry where
  pins : List String := []
  set_value : Bool := false
  fusion_add : Option String := none
deriving DecidableEq, Repr

/-- `catalog_parts` / `parts_by_id`: part_id-keyed dict. -/
def Catalog : Type := List (String × CatalogEntry)

/-! ### Commands IR (`models_commands.py`) -/

structure AddComponentArgs where
  part_id : String
  refdes : String
deriving DecidableEq, Repr

structure RemoveComponentArgs where
  refdes : String
deriving DecidableEq, Repr

structure CreateNetArgs where
  net_name : String
deriving DecidableEq, Repr

structure RenameNetArgs where
  from_ : String
  to_ : String
deriving DecidableEq, Repr

structure ConnectArgs where
  refdes : String
  pin : String
  net_name : String
deriving DecidableEq, Repr

structure SetValueArgs where
  refdes : String
  value : String
deriving DecidableEq, Repr

structure PlaceComponentArgs where
  refdes : String
  x : ℚ
  y : ℚ
  rotation : ℚ := 0
  layer : Layer := Layer.Top
deriving DecidableEq, Repr

structure PlaceNearArgs where
  refdes : String
  anchor_refdes : String
  dx : ℚ
  dy : ℚ
  rotation : ℚ := 0
  layer : Layer := Layer.Top
deriving DecidableEq, Repr

/-- The discriminated union `Command` (`disconnect` shares `ConnectArgs`,
matching `DisconnectArgs`, which has the same three fields). -/
inductive Command
  | add_component (args : AddComponentArgs)
  | remove_component (args : RemoveComponentArgs)
  | create_net (args : CreateNetArgs)
  | rename_net (args : RenameNetArgs)
  | connect (args : ConnectArgs)
  | disconnect (args : ConnectArgs)
  | set_value (args : SetValueArgs)
  | place_component (args : PlaceComponentArgs)
  | place_near (args : PlaceNearArgs)
  | comment (text : String)
deriving DecidableEq, Repr

/-- `CommandsDoc`. -/
structure CommandsDoc where
  commands : List Command := []
deriving DecidableEq, Repr

/-! ### Actions IR (`models_actions.py`) -/

/-- The discriminated union `Action`. -/
inductive Action
  | add (cmd : String) (refdes : String)
  | set_value (refdes : String) (value : String)
  | place (refdes : String) (x y rotation : ℚ) (layer : Layer)
  | connect (refdes : String) (pin : String) (net_name : String)
  | disconnect (refdes : String) (pin : String) (net_name : String)
  | rename_net (from_ : String) (to_ : String)
  | remove (refdes : String)
deriving DecidableEq, Repr

/-- The upper-case `type` tag of an action (`"ADD"`, `"SET_VALUE"`, …). -/
def Action.typeTag : Action → String
  | .add _ _ => "ADD"
  | .set_value _ _ => "SET_VALUE"
  | .place _ _ _ _ _ => "PLACE"
  | .connect _ _ _ => "CONNECT"
  | .disconnect _ _ _ => "DISCONNECT"
  | .rename_net _ _ => "RENAME_NET"
  | .remove _ => "REMOVE"

/-- `ActionsDoc`. -/
structure ActionsDoc where
  actions : List Action := []
deriving DecidableEq, Repr

/-- A Python exception escaping a core function. -/
inductive PyError
  | valueError (msg : String)
  | attributeError (msg : String)
deriving DecidableEq, Repr

/-! ### Validator (`compile/validate.py`)

Error/warning messages are modelled as a closed inductive type `VMsg`, one
constructor per f-string in the source, rendered to the source's text by
`VMsg.render`; `ValidationResult` holds the structured messages and
`format_validation` renders them. -/

/-- One validator error or warning message, one constructor per message
site in `validate_commands`. -/
inductive VMsg
  | addPartNotFound (i : Nat) (part_id : String)
  | addRefdesDuplicate (i : Nat) (refdes : String)
  | addRefdesInSnapshot (i : Nat) (refdes : String)
  | removeRefdesMissing (i : Nat) (refdes : String)
  | createNetExists (i : Nat) (net : String)
  | renameFromMissing (i : Nat) (from_ : String)
  | renameToExists (i : Nat) (to_ : String)
  | connectRefdesMissing (i : Nat) (refdes : String)
  | connectPinNotInCatalog (i : Nat) (pin part_id : String) (pins : List String)
  | connectPinNotInSnapshot (i : Nat) (pin refdes : String) (pins : List String)
  | connectPinUnchecked (i : Nat) (pin refdes : String)
  | connectNetAutoCreate (i : Nat) (net : String)
  | disconnectRefdesMissing (i : Nat) (refdes : String)
  | disconnectPinNotInSnapshot (i : Nat) (pin refdes : String) (pins : List String)
  | disconnectPinUnchecked (i : Nat) (pin refdes : String)
  | disconnectConnMissing (i : Nat) (refdes pin net : String)
  | setValueRefdesMissing (i : Nat) (refdes : String)
  | setValueNotAllowed (i : Nat) (part_id : String)
  | placeRefdesMissing (i : Nat) (refdes : String)
  | placeNearRefdesMissing (i : Nat) (refdes : String)
  | placeNearAnchorMissing (i : Nat) (anchor_refdes : String)
deriving DecidableEq, Repr

/-- `f"Command[{i}]"` prefix. -/
def cmdIdx (i : Nat) : String := "Command[" ++ toString i ++ "]"

/-- Single-quote a string the way the source's f-strings do. -/
def q (s : String) : String := "\u0027" ++ s ++ "\u0027"

/-- Render a pin list roughly as Python would interpolate it. -/
def showPins (pins : List String) : String :=
  "[" ++ String.intercalate ", " (pins.map q) ++ "]"

/-- The source text of each validator message. -/
def VMsg.render : VMsg → String
  | .addPartNotFound i p =>
      cmdIdx i ++ ": add_component part_id " ++ q p ++ " not found in catalog"
  | .addRefdesDuplicate i r =>
      cmdIdx i ++ ": add_component refdes " ++ q r ++ " duplicates earlier add"
  | .addRefdesInSnapshot i r =>
      cmdIdx i ++ ": add_component refdes " ++ q r ++ " already exists in snapshot"
  | .removeRefdesMissing i r =>
      cmdIdx i ++ ": remove_component refdes " ++ q r ++ " does not exist"
  | .createNetExists i n =>
      cmdIdx i ++ ": create_net " ++ q n ++ " already exists"
  | .renameFromMissing i f =>
      cmdIdx i ++ ": rename_net " ++ q "from" ++ " net " ++ q f ++ " does not exist"
  | .renameToExists i t =>
      cmdIdx i ++ ": rename_net " ++ q "to" ++ " net " ++ q t ++ " already exists"
  | .connectRefdesMissing i r =>
      cmdIdx i ++ ": connect refdes " ++ q r ++ " does not exist"
  | .connectPinNotInCatalog i pin p pins =>
      cmdIdx i ++ ": connect pin " ++ q pin ++ " not in catalog pins for part "
        ++ q p ++ ": " ++ showPins pins
  | .connectPinNotInSnapshot i pin r pins =>
      cmdIdx i ++ ": connect pin " ++ q pin ++ " not in snapshot pins for "
        ++ q r ++ ": " ++ showPins pins
  | .connectPinUnchecked i pin r =>
      cmdIdx i ++ ": connect pin " ++ q pin
        ++ " cannot be validated - snapshot has no pin info for " ++ q r
  | .connectNetAutoCreate i n =>
      cmdIdx i ++ ": connect net " ++ q n ++ " will be auto-created"
  | .disconnectRefdesMissing i r =>
      cmdIdx i ++ ": disconnect refdes " ++ q r ++ " does not exist"
  | .disconnectPinNotInSnapshot i pin r pins =>
      cmdIdx i ++ ": disconnect pin " ++ q pin ++ " not in snapshot pins for "
        ++ q r ++ ": " ++ showPins pins
  | .disconnectPinUnchecked i pin r =>
      cmdIdx i ++ ": disconnect pin " ++ q pin
        ++ " cannot be validated - snapshot has no pin info for " ++ q r
  | .disconnectConnMissing i r pin n =>
      cmdIdx i ++ ": disconnect connection " ++ q (r ++ "." ++ pin) ++ " -> "
        ++ q n ++ " does not exist in snapshot"
  | .setValueRefdesMissing i r =>
      cmdIdx i ++ ": set_value refdes " ++ q r ++ " does not exist"
  | .setValueNotAllowed i p =>
      cmdIdx i ++ ": set_value not allowed for part " ++ q p
        ++ " (catalog.set_value != true)"
  | .placeRefdesMissing i r =>
      cmdIdx i ++ ": place_component refdes " ++ q r ++ " does not exist"
  | .placeNearRefdesMissing i r =>
      cmdIdx i ++ ": place_near refdes " ++ q r ++ " does not exist"
  | .placeNearAnchorMissing i a =>
      cmdIdx i ++ ": place_near anchor_refdes " ++ q a ++ " does not exist"

/-- `ValidationResult` (errors/warnings kept structured; `render` recovers
the source's strings). -/
structure ValidationResult where
  ok : Bool
  errors : List VMsg := []
  warnings : List VMsg := []
deriving DecidableEq, Repr

/-- The running state of the single validation pass. -/
structure VState where
  errors : List VMsg := []
  warnings : List VMsg := []
  newly_added_refdes : List String := []
  known_refdes : List String := []
  created_nets : List String := []
  known_nets : List String := []
  net_renames : List (String × String) := []
  refdes_to_part_id : List (String × String) := []
deriving DecidableEq, Repr

/-- The `disconnect` branch of `validate_commands` evaluates
`cmd.args.args.pin` (line 202): `DisconnectArgs` has no `args` attribute,
so reaching that expression raises. -/
def disconnectArgsBug : PyError :=
  .attributeError
    "\u0027DisconnectArgs\u0027 object has no attribute \u0027args\u0027"

/-- The refdes/pin checking part of the validator's `connect` branch
(everything before the net auto-create check): errors for an unknown
refdes or an invalid pin, a warning when the snapshot carries no pin
info.  Touches only `errors` and `warnings`. -/
def connectPinPhase (parts : Catalog)
    (snapshot_components : List (String × SnapshotComponent))
    (s : VState) (i : Nat) (a : ConnectArgs) : VState :=
  if a.refdes ∉ s.known_refdes then
    { s with errors := s.errors ++ [.connectRefdesMissing i a.refdes] }
  else if a.refdes ∈ s.newly_added_refdes then
    match lookupA s.refdes_to_part_id a.refdes with
    | some part_id =>
      if part_id ≠ "" then
        match lookupA parts part_id with
        | some entry =>
          if a.pin ∉ entry.pins then
            { s with errors := s.errors ++
                [.connectPinNotInCatalog i a.pin part_id entry.pins] }
          else s
        | none => s
      else s
    | none => s
  else
    match lookupA snapshot_components a.refdes with
    | some comp =>
      if comp.pins ≠ [] then
        if a.pin ∉ comp.pins then
          { s with errors := s.errors ++
              [.connectPinNotInSnapshot i a.pin a.refdes comp.pins] }
        else s
      else
        { s with warnings := s.warnings ++
            [.connectPinUnchecked i a.pin a.refdes] }
    | none => s

/-- The `set_value` branch's owning-part resolution (`part_id = None;
if refdes in newly_added: part_id = refdes_to_part_id.get(refdes);
elif refdes in snapshot_components: part_id = comp.part_id`): the
part id for a newly added refdes from the same-document map, else the
snapshot component's (possibly absent) part id. -/
def resolvedPartId (s : VState)
    (snapshot_components : List (String × SnapshotComponent))
    (refdes : String) : Option String :=
  if refdes ∈ s.newly_added_refdes then
    lookupA s.refdes_to_part_id refdes
  else
    match lookupA snapshot_components refdes with
    | some comp => comp.part_id
    | none => none

/-- One iteration of the `validate_commands` loop for the command at index
`i`.  `parts` is `parts_by_id`, `snapshot_components` the precomputed
`snapshot_component_map`.  The `disconnect` branch can raise (see
`disconnectArgsBug`), hence the `Except`. -/
def validateStep (parts : Catalog) (snapshot : Option SnapshotDoc)
    (snapshot_components : List (String × SnapshotComponent))
    (s : VState) (i : Nat) : Command → Except PyError VState
  | .add_component a =>
    let s1 :=
      if (lookupA parts a.part_id).isNone then
        { s with errors := s.errors ++ [.addPartNotFound i a.part_id] }
      else s
    if a.refdes ∈ s1.newly_added_refdes then
      .ok { s1 with errors := s1.errors ++ [.addRefdesDuplicate i a.refdes] }
    else if (lookupA snapshot_components a.refdes).isSome then
      .ok { s1 with errors := s1.errors ++ [.addRefdesInSnapshot i a.refdes] }
    else
      .ok { s1 with
        newly_added_refdes := addS s1.newly_added_refdes a.refdes,
        known_refdes := addS s1.known_refdes a.refdes,
        refdes_to_part_id := updA s1.refdes_to_part_id a.refdes a.part_id }
  | .remove_component a =>
    if a.refdes ∉ s.known_refdes then
      .ok { s with errors := s.errors ++ [.removeRefdesMissing i a.refdes] }
    else .ok s
  | .create_net a =>
    if a.net_name ∈ s.known_nets then
      .ok { s with warnings := s.warnings ++ [.createNetExists i a.net_name] }
    else
      .ok { s with
        created_nets := addS s.created_nets a.net_name,
        known_nets := addS s.known_nets a.net_name }
  | .rename_net a =>
    let s1 :=
      if a.from_ ∉ s.known_nets then
        { s with errors := s.errors ++ [.renameFromMissing i a.from_] }
      else s
    let s2 :=
      if a.to_ ∈ s1.known_nets ∧ a.to_ ≠ a.from_ then
        { s1 with errors := s1.errors ++ [.renameToExists i a.to_] }
      else s1
    if a.from_ ∈ s2.known_nets then
      .ok { s2 with
        known_nets := addS (discardS s2.known_nets a.from_) a.to_,
        net_renames := updA s2.net_renames a.from_ a.to_ }
    else .ok s2
  | .connect a =>
    let s1 := connectPinPhase parts snapshot_components s i a
    if a.net_name ∉ s1.known_nets then
      .ok { s1 with
        warnings := s1.warnings ++ [.connectNetAutoCreate i a.net_name],
        known_nets := addS s1.known_nets a.net_name }
    else .ok s1
  | .disconnect a =>
    let checked : Except PyError VState :=
      if a.refdes ∉ s.known_refdes then
        .ok { s with errors := s.errors ++ [.disconnectRefdesMissing i a.refdes] }
      else if a.refdes ∈ s.newly_added_refdes then
        match lookupA s.refdes_to_part_id a.refdes with
        | some part_id =>
          if part_id ≠ "" then
            match lookupA parts part_id with
            | some _ =>
              -- source line 202 evaluates `cmd.args.args.pin`: AttributeError
              .error disconnectArgsBug
            | none => .ok s
          else .ok s
        | none => .ok s
      else
        match lookupA snapshot_components a.refdes with
        | some comp =>
          if comp.pins ≠ [] then
            if a.pin ∉ comp.pins then
              .ok { s with errors := s.errors ++
                  [.disconnectPinNotInSnapshot i a.pin a.refdes comp.pins] }
            else .ok s
          else
            .ok { s with warnings := s.warnings ++
                [.disconnectPinUnchecked i a.pin a.refdes] }
        | none => .ok s
    match checked with
    | .error e => .error e
    | .ok s1 =>
      match snapshot with
      | some snap =>
        if (lookupA snapshot_components a.refdes).isSome then
          let connection_exists := snap.nets.any (fun net =>
            net.net_name == a.net_name &&
              net.connections.any (fun conn =>
                conn.refdes == a.refdes && conn.pin == a.pin))
          if !connection_exists then
            .ok { s1 with warnings := s1.warnings ++
                [.disconnectConnMissing i a.refdes a.pin a.net_name] }
          else .ok s1
        else .ok s1
      | none => .ok s1
  | .set_value a =>
    if a.refdes ∉ s.known_refdes then
      .ok { s with errors := s.errors ++ [.setValueRefdesMissing i a.refdes] }
    else
      match resolvedPartId s snapshot_components a.refdes with
      | some p =>
        if p ≠ "" then
          match lookupA parts p with
          | some entry =>
            if !entry.set_value then
              .ok { s with errors := s.errors ++ [.setValueNotAllowed i p] }
            else .ok s
          | none => .ok s
        else .ok s
      | none => .ok s
  | .place_component a =>
    if a.refdes ∉ s.known_refdes then
      .ok { s with errors := s.errors ++ [.placeRefdesMissing i a.refdes] }
    else .ok s
  | .place_near a =>
    let s1 :=
      if a.refdes ∉ s.known_refdes then
        { s with errors := s.errors ++ [.placeNearRefdesMissing i a.refdes] }
      else s
    if a.anchor_refdes ∉ s1.known_refdes then
      .ok { s1 with errors := s1.errors ++
          [.placeNearAnchorMissing i a.anchor_refdes] }
    else .ok s1
  | .comment _ => .ok s

/-- The `for i, cmd in enumerate(doc.commands)` loop: thread the state
through `validateStep`, propagating a raised exception. -/
def validateGo (parts : Catalog) (snapshot : Option SnapshotDoc)
    (snapshot_components : List (String × SnapshotComponent))
    (s : VState) (i : Nat) : List Command → Except PyError VState
  | [] => .ok s
  | c :: rest =>
    match validateStep parts snapshot snapshot_components s i c with
    | .error e => .error e
    | .ok s2 => validateGo parts snapshot snapshot_components s2 (i + 1) rest

/-- `validate_commands(doc, parts_by_id, snapshot)`. -/
def validate_commands (doc : CommandsDoc) (parts_by_id : Catalog)
    (snapshot : Option SnapshotDoc) : Except PyError ValidationResult :=
  let snapshot_components :=
    match snapshot with
    | some snap => snapshot_component_map snap
    | none => []
  let snapshot_nets_set :=
    match snapshot with
    | some snap => snap.nets.foldl (fun acc net => addS acc net.net_name) []
    | none => []
  let s0 : VState :=
    { known_refdes := snapshot_components.map Prod.fst,
      known_nets := snapshot_nets_set }
  match validateGo parts_by_id snapshot snapshot_components s0 0 doc.commands with
  | .error e => .error e
  | .ok s =>
    .ok { ok := s.errors.isEmpty, errors := s.errors, warnings := s.warnings }

/-- `format_validation(result)`. -/
def format_validation (result : ValidationResult) : String :=
  let lines : List String :=
    (if result.ok then ["✓ Validation PASSED"] else ["✗ Validation FAILED"])
    ++ (if result.errors ≠ [] then
          ("\nErrors (" ++ toString result.errors.length ++ "):")
            :: result.errors.map (fun e => "  - " ++ e.render)
        else [])
    ++ (if result.warnings ≠ [] then
          ("\nWarnings (" ++ toString result.warnings.length ++ "):")
            :: result.warnings.map (fun w => "  - " ++ w.render)
        else [])
    ++ (if result.errors = [] ∧ result.warnings = [] then
          ["  No issues found"]
        else [])
  String.intercalate "\n" lines

/-! ### Placement engine (`layout/placer.py`, `compile/placement.py`) -/

/-- Python 3 `round` to an integer: round half to even. -/
def pyRound (x : ℚ) : ℤ :=
  let f := ⌊x⌋
  let r := x - (f : ℚ)
  if r < 1 / 2 then f
  else if 1 / 2 < r then f + 1
  else if f % 2 = 0 then f else f + 1

/-- Python `int()` on a float: truncation toward zero. -/
def pyInt (x : ℚ) : ℤ := if 0 ≤ x then ⌊x⌋ else ⌈x⌉

/-- Python float `%` (sign of the divisor; used with positive divisors). -/
def qmod (a b : ℚ) : ℚ := a - b * (⌊a / b⌋ : ℚ)

/-- `placer.Rect`. -/
structure Rect where
  x : ℚ
  y : ℚ
  w : ℚ
  h : ℚ
deriving DecidableEq, Repr

/-- `Rect.intersects`: axis-aligned overlap test. -/
def Rect.intersects (self other : Rect) : Bool :=
  !(decide (self.x + self.w ≤ other.x) ||
    decide (other.x + other.w ≤ self.x) ||
    decide (self.y + self.h ≤ other.y) ||
    decide (other.y + other.h ≤ self.y))

/-- `placer.PartToPlace`. -/
structure PartToPlace where
  refdes : String
  part_id : String
  kind : String
  anchor_refdes : Option String := none
  dx : ℚ := 0
  dy : ℚ := 0
  rotation : ℚ := 0
  width : Option ℚ := none
  height : Option ℚ := none
deriving DecidableEq, Repr

/-- A component record of the untyped snapshot dict as the placer reads it
(`comp.get('x')` etc.; `none` models a missing key or a `None` value). -/
structure PComp where
  refdes : Option String := none
  x : Option ℚ := none
  y : Option ℚ := none
  width : Option ℚ := none
  height : Option ℚ := none
  part_id : Option String := none
  kind : Option String := none
deriving DecidableEq, Repr

/-- The untyped snapshot dict handed to the placer (`None` or a dict
without a `components` key is modelled as `none` at the call site). -/
structure PSnapshot where
  components : List PComp := []
deriving DecidableEq, Repr

/-- `GridPlacer.__init__` configuration. -/
structure GridPlacer where
  grid_step : ℚ := 10
  margin : ℚ := 5
  sheet_max_x : ℚ := 500
  wrap_y_step : ℚ := 50
deriving DecidableEq, Repr

/-- `GridPlacer.estimate_size_cells`. -/
def estimate_size_cells (_part_id : String) (kind : String) : ℤ × ℤ :=
  let kind_lower := kind.toLower
  if kind_lower = "resistor" ∨ kind_lower = "capacitor" then (3, 1)
  else if kind_lower = "ic" ∨ kind_lower = "microcontroller" ∨
      kind_lower = "mcu" then (6, 4)
  else if kind_lower = "connector" then (6, 2)
  else if kind_lower = "diode" ∨ kind_lower = "transistor" ∨
      kind_lower = "mosfet" ∨ kind_lower = "bjt" then (3, 2)
  else (3, 2)

/-- `GridPlacer.build_occupied`: margin-padded rectangles of the snapshot
components that carry top-level `x`/`y`. -/
def build_occupied (gp : GridPlacer) (snapshot : Option PSnapshot) :
    List Rect :=
  match snapshot with
  | none => []
  | some snap =>
    snap.components.filterMap (fun comp =>
      match comp.x, comp.y with
      | some x, some y =>
        let wh : ℚ × ℚ :=
          match comp.width, comp.height with
          | some w, some h => (w, h)
          | _, _ =>
            let cells := estimate_size_cells (comp.part_id.getD "")
              (comp.kind.getD "unknown")
            ((cells.1 : ℚ) * gp.grid_step, (cells.2 : ℚ) * gp.grid_step)
        some { x := x - gp.margin, y := y - gp.margin,
               w := wh.1 + 2 * gp.margin, h := wh.2 + 2 * gp.margin }
      | _, _ => none)

/-- `GridPlacer.snap_to_grid`. -/
def snap_to_grid (gp : GridPlacer) (x y : ℚ) : ℚ × ℚ :=
  ((pyRound (x / gp.grid_step) : ℚ) * gp.grid_step,
   (pyRound (y / gp.grid_step) : ℚ) * gp.grid_step)

/-- The scan loop of `GridPlacer.find_free_slot`: test up to `fuel`
candidate grid positions, advancing by `grid_step` and wrapping a row when
the sheet width is exceeded.  `none` models exhausting `max_attempts`. -/
def findFreeSlotGo (gp : GridPlacer) (occupied : List Rect)
    (width height start_x : ℚ) (x y : ℚ) : Nat → Option (ℚ × ℚ)
  | 0 => none
  | fuel + 1 =>
    let test : Rect := { x := x, y := y, w := width, h := height }
    if occupied.any (fun occ => test.intersects occ) then
      let x2 := x + gp.grid_step
      if x2 + width > gp.sheet_max_x then
        findFreeSlotGo gp occupied width height start_x start_x
          (y + gp.wrap_y_step) fuel
      else
        findFreeSlotGo gp occupied width height start_x x2 y fuel
    else some (x, y)

/-- `GridPlacer.find_free_slot` (`max_attempts = 1000`; on exhaustion fall
back to the snapped preferred origin even if it collides). -/
def find_free_slot (gp : GridPlacer) (occupied : List Rect)
    (preferred_origin : ℚ × ℚ) (size : ℤ × ℤ) : ℚ × ℚ :=
  let width := (size.1 : ℚ) * gp.grid_step
  let height := (size.2 : ℚ) * gp.grid_step
  let start := snap_to_grid gp preferred_origin.1 preferred_origin.2
  match findFreeSlotGo gp occupied width height start.1 start.1 start.2
      1000 with
  | some p => p
  | none => start

/-- `GridPlacer.clamp_rotation`: normalize to `[0, 360)` then round to the
nearest multiple of 90. -/
def clamp_rotation (rotation : ℚ) : ℚ :=
  let r := qmod rotation 360
  let quarters := pyRound (r / 90)
  ((quarters * 90) % 360 : ℤ)

/-- Component size in cells: explicit `width`/`height` (if both truthy)
divided by the grid step, else `estimate_size_cells`. -/
def partCells (gp : GridPlacer) (part : PartToPlace) : ℤ × ℤ :=
  match part.width, part.height with
  | some w, some h =>
    if w ≠ 0 ∧ h ≠ 0 then (pyInt (w / gp.grid_step), pyInt (h / gp.grid_step))
    else estimate_size_cells part.part_id part.kind
  | _, _ => estimate_size_cells part.part_id part.kind

/-- The preferred origin of a part: anchored to a known position when
`anchor_refdes` is truthy and resolvable, else the default column. -/
def preferredOrigin (gp : GridPlacer)
    (existing_positions : List (String × (ℚ × ℚ))) (base_x base_y : ℚ)
    (part : PartToPlace) : ℚ × ℚ :=
  match part.anchor_refdes with
  | some a =>
    if a ≠ "" then
      match lookupA existing_positions a with
      | some pos => (pos.1 + part.dx * gp.grid_step,
                     pos.2 + part.dy * gp.grid_step)
      | none => (base_x, base_y)
    else (base_x, base_y)
  | none => (base_x, base_y)

/-- The per-part loop of `GridPlacer.place_all`: find a slot, clamp the
rotation, record the placement, and commit the padded rectangle and the
position before the next part. -/
def placeAllGo (gp : GridPlacer) (occupied : List Rect)
    (existing_positions : List (String × (ℚ × ℚ))) (base_x base_y : ℚ)
    (placements : List (String × Placement)) :
    List PartToPlace → List (String × Placement)
  | [] => placements
  | part :: rest =>
    let cells := partCells gp part
    let pref := preferredOrigin gp existing_positions base_x base_y part
    let xy := find_free_slot gp occupied pref cells
    let rot := clamp_rotation part.rotation
    let width := (cells.1 : ℚ) * gp.grid_step
    let height := (cells.2 : ℚ) * gp.grid_step
    placeAllGo gp
      (occupied ++ [{ x := xy.1 - gp.margin, y := xy.2 - gp.margin,
                      w := width + 2 * gp.margin,
                      h := height + 2 * gp.margin }])
      (updA existing_positions part.refdes xy) base_x base_y
      (updA placements part.refdes
        { x := xy.1, y := xy.2, rotation := rot, layer := Layer.Top })
      rest

/-- `GridPlacer.place_all`. -/
def place_all (gp : GridPlacer) (new_parts : List PartToPlace)
    (snapshot : Option PSnapshot) : List (String × Placement) :=
  let occupied := build_occupied gp snapshot
  let existing_positions : List (String × (ℚ × ℚ)) :=
    match snapshot with
    | none => []
    | some snap =>
      snap.components.foldl (fun acc comp =>
        match comp.refdes, comp.x, comp.y with
        | some r, some x, some y =>
          if r ≠ "" then updA acc r (x, y) else acc
        | _, _, _ => acc) []
  let max_x : ℚ :=
    match occupied with
    | [] => 0
    | r :: rest => rest.foldl (fun acc rr => max acc (rr.x + rr.w)) (r.x + r.w)
  let base_x := max_x + 6 * gp.grid_step
  let base_y : ℚ := 0
  placeAllGo gp occupied existing_positions base_x base_y [] new_parts

/-- `placement.place_near`: offset a placement from an anchor. -/
def place_near_util (anchor : Placement) (dx dy rotation : ℚ)
    (layer : Layer) : Placement :=
  { x := anchor.x + dx, y := anchor.y + dy, rotation := rotation,
    layer := layer }

/-- `placement.auto_place` as the compiler invokes it (default
`grid_step=10`, `margin=5`, `sheet_max_x=500`, `wrap_y_step=50`): skip
already-placed refdes, look part info up in the snapshot dict, then run the
grid placer and convert its placements to domain placements. -/
def auto_place (refdes_list : List String) (_catalog_parts : Catalog)
    (existing_placements : List (String × Placement))
    (snapshot : Option PSnapshot) : List (String × Placement) :=
  let gp : GridPlacer :=
    { grid_step := 10, margin := 5, sheet_max_x := 500, wrap_y_step := 50 }
  let parts_to_place : List PartToPlace :=
    refdes_list.filterMap (fun refdes =>
      if (lookupA existing_placements refdes).isSome then none
      else
        let found : Option PComp :=
          match snapshot with
          | some snap =>
            snap.components.find? (fun c => c.refdes == some refdes)
          | none => none
        let part_id :=
          match found with
          | some c => c.part_id.getD ""
          | none => ""
        let kind :=
          match found with
          | some c => c.kind.getD "unknown"
          | none => "unknown"
        some { refdes := refdes,
               part_id := if part_id = "" then refdes else part_id,
               kind := kind })
  let grid_placements := place_all gp parts_to_place snapshot
  grid_placements.foldl (fun acc p =>
    updA acc p.1
      { x := p.2.x, y := p.2.y, rotation := p.2.rotation,
        layer := p.2.layer }) []

/-! ### Compiler (`compile/compiler.py`) -/

/-- The `while current in net_alias and current not in visited` loop of
`normalize_net_name`, with enough fuel to cover any alias chain. -/
def normalizeGo (net_alias : List (String × String)) :
    Nat → List String → String → String
  | 0, _, current => current
  | fuel + 1, visited, current =>
    match lookupA net_alias current with
    | none => current
    | some nxt =>
      if current ∈ visited then current
      else normalizeGo net_alias fuel (current :: visited) nxt

/-- `normalize_net_name(name, net_alias)`: follow the alias chain, guarding
against cycles with a visited set.  Each iteration of the source loop adds
a fresh alias key to `visited`, so `net_alias.length + 1` fuel is never
exhausted before the loop condition fails. -/
def normalize_net_name (name : String)
    (net_alias : List (String × String)) : String :=
  normalizeGo net_alias (net_alias.length + 1) [] name

/-- The state collected by the compiler's first pass (STEP 3). -/
structure PassAState where
  new_components : List (String × String) := []
  refdes_to_part_id : List (String × String) := []
  explicit_placements : List (String × Placement) := []
  net_alias : List (String × String) := []
  components_to_remove : List String := []
  warnings : List String := []
deriving DecidableEq, Repr

/-- One iteration of the compiler's first pass. -/
def passAStep (existing_placements : List (String × Placement))
    (s : PassAState) : Command → PassAState
  | .add_component a =>
    { s with
      new_components := updA s.new_components a.refdes a.part_id,
      refdes_to_part_id := updA s.refdes_to_part_id a.refdes a.part_id }
  | .rename_net a => { s with net_alias := updA s.net_alias a.from_ a.to_ }
  | .place_component a =>
    let pl : Placement :=
      { x := a.x, y := a.y, rotation := a.rotation, layer := a.layer }
    { s with explicit_placements := updA s.explicit_placements a.refdes pl }
  | .place_near a =>
    let anchor_placement : Option Placement :=
      match lookupA s.explicit_placements a.anchor_refdes with
      | some pl => some pl
      | none => lookupA existing_placements a.anchor_refdes
    match anchor_placement with
    | some anchor =>
      let pl := place_near_util anchor a.dx a.dy a.rotation a.layer
      { s with explicit_placements := updA s.explicit_placements a.refdes pl }
    | none =>
      { s with warnings := s.warnings ++
          ["place_near: anchor " ++ q a.anchor_refdes ++
            " has no placement, skipping relative placement for " ++
            q a.refdes] }
  | .remove_component a =>
    { s with components_to_remove := s.components_to_remove ++ [a.refdes] }
  | _ => s

/-- Phase A of STEP 4: one `RenameNet` action per `rename_net` command, in
document order. -/
def renameActionOf : Command → Option Action
  | .rename_net a => some (.rename_net a.from_ a.to_)
  | _ => none

/-- Phase B of STEP 4: the `Add` action emitted for an `add_component`
command (skipped with a warning when the part or its `fusion_add` is
missing). -/
def addActionOf (catalog_parts : Catalog) : Command → Option Action
  | .add_component a =>
    match lookupA catalog_parts a.part_id with
    | none => none
    | some entry =>
      let fusion_cmd := entry.fusion_add.getD ""
      if fusion_cmd = "" then none else some (.add fusion_cmd a.refdes)
  | _ => none

/-- The warning emitted when phase B skips an `add_component`. -/
def addWarningOf (catalog_parts : Catalog) : Command → Option String
  | .add_component a =>
    match lookupA catalog_parts a.part_id with
    | none => some ("Part " ++ q a.part_id ++
        " not found in catalog during compilation")
    | some entry =>
      if entry.fusion_add.getD "" = "" then
        some ("Part " ++ q a.part_id ++ " missing fusion_add command")
      else none
  | _ => none

/-- Phase C of STEP 4: `SetValue` actions in document order. -/
def setValueActionOf : Command → Option Action
  | .set_value a => some (.set_value a.refdes a.value)
  | _ => none

/-- Phase E of STEP 4: `Connect`/`Disconnect` actions in document order,
net names passed through `normalize_net_name`. -/
def connDisActionOf (net_alias : List (String × String)) :
    Command → Option Action
  | .connect a =>
    some (.connect a.refdes a.pin (normalize_net_name a.net_name net_alias))
  | .disconnect a =>
    some (.disconnect a.refdes a.pin
      (normalize_net_name a.net_name net_alias))
  | _ => none

/-- Phase F of STEP 4: `Remove` actions last, in document order. -/
def removeActionOf : Command → Option Action
  | .remove_component a => some (.remove a.refdes)
  | _ => none

/-- `snapshot.model_dump(mode='json')` as the placer then reads it: the
component dicts carry `refdes`/`part_id` but no top-level `x`/`y`/
`width`/`height`/`kind` keys. -/
def dumpSnapshot (s : SnapshotDoc) : PSnapshot :=
  { components := s.components.map (fun c =>
      { refdes := some c.refdes, part_id := c.part_id }) }

/-- STEP 2: `refdes -> part_id` for snapshot components with a truthy
`part_id`. -/
def compilerRefdesToPartId0 (snapshot : Option SnapshotDoc) :
    List (String × String) :=
  let existing_components :=
    match snapshot with
    | some s => snapshot_component_map s
    | none => []
  existing_components.foldl (fun acc p =>
    match p.2.part_id with
    | some pid => if pid ≠ "" then updA acc p.1 pid else acc
    | none => acc) []

/-- STEP 2: placements already present in the snapshot. -/
def compilerExistingPlacements (snapshot : Option SnapshotDoc) :
    List (String × Placement) :=
  match snapshot with
  | some s =>
    s.components.foldl (fun acc comp =>
      match comp.placement with
      | some pl => updA acc comp.refdes pl
      | none => acc) []
  | none => []

/-- STEP 3: the whole first pass over the command list. -/
def compilerPassA (doc : CommandsDoc) (snapshot : Option SnapshotDoc) :
    PassAState :=
  doc.commands.foldl (passAStep (compilerExistingPlacements snapshot))
    { refdes_to_part_id := compilerRefdesToPartId0 snapshot }

/-- STEP 4.D: explicit-or-snapshot placements merged with the auto
placements (`all_placements` after both `update` calls). -/
def compilerAllPlacements (doc : CommandsDoc) (catalog_parts : Catalog)
    (snapshot : Option SnapshotDoc) : List (String × Placement) :=
  let all_placements := updAll (compilerExistingPlacements snapshot)
    (compilerPassA doc snapshot).explicit_placements
  let auto_placements := auto_place
    ((compilerPassA doc snapshot).new_components.map Prod.fst) catalog_parts
    all_placements (snapshot.map dumpSnapshot)
  updAll all_placements auto_placements

/-- STEP 4.D: the `PLACE` actions — one per newly added refdes found in
the merged placement map, in add order. -/
def compilerPlaceActs (doc : CommandsDoc) (catalog_parts : Catalog)
    (snapshot : Option SnapshotDoc) : List Action :=
  ((compilerPassA doc snapshot).new_components.map Prod.fst).filterMap
    (fun r => (lookupA (compilerAllPlacements doc catalog_parts snapshot)
      r).map (fun pl => Action.place r pl.x pl.y pl.rotation pl.layer))

/-- STEPs 2–4 of `compile_to_actions`, run once validation passed: collect
state, then emit actions in the fixed phase order
RENAME_NET, ADD, SET_VALUE, PLACE, CONNECT/DISCONNECT, REMOVE; the
returned warnings are the validator's, then pass A's, then the ADD
phase's. -/
def buildCompiled (doc : CommandsDoc) (catalog_parts : Catalog)
    (snapshot : Option SnapshotDoc) (vr : ValidationResult) :
    ActionsDoc × List String :=
  ({ actions :=
      doc.commands.filterMap renameActionOf ++
      doc.commands.filterMap (addActionOf catalog_parts) ++
      doc.commands.filterMap setValueActionOf ++
      compilerPlaceActs doc catalog_parts snapshot ++
      doc.commands.filterMap
        (connDisActionOf (compilerPassA doc snapshot).net_alias) ++
      doc.commands.filterMap removeActionOf },
   vr.warnings.map VMsg.render ++ (compilerPassA doc snapshot).warnings ++
     doc.commands.filterMap (addWarningOf catalog_parts))

/-- `compile_to_actions(commands, catalog_parts, snapshot)`: STEP 1 runs
the validator; any error raises `ValueError` with the full formatted
summary; otherwise the action document is built whole. -/
def compile_to_actions (doc : CommandsDoc) (catalog_parts : Catalog)
    (snapshot : Option SnapshotDoc) :
    Except PyError (ActionsDoc × List String) :=
  match validate_commands doc catalog_parts snapshot with
  | .error e => .error e
  | .ok vr =>
    if !vr.ok then
      .error (.valueError
        ("Commands validation failed:\n" ++ format_validation vr))
    else
      .ok (buildCompiled doc catalog_parts snapshot vr)

/-! ### Definitions supporting the claim statements -/

/-- Number of auto-create warnings for net `n` in a warning list. -/
def countAuto (n : String) (l : List VMsg) : Nat :=
  l.countP (fun m =>
    match m with
    | .connectNetAutoCreate _ n2 => decide (n2 = n)
    | _ => false)

/-- Does this command rename net `n` away (`rename_net` with `from = n`)? -/
def renamesFrom (n : String) : Command → Bool
  | .rename_net a => a.from_ == n
  | _ => false

/-- `isChain net_alias [n0, …, nk] = true` iff each `n(i)` aliases to
`n(i+1)` and the last element has no alias: the full rename chain from `n0`
to its end. -/
def isChain (net_alias : List (String × String)) : List String → Bool
  | [] => false
  | [n] => (lookupA net_alias n).isNone
  | n :: m :: rest => lookupA net_alias n == some m && isChain net_alias (m :: rest)

/-- The refdes whose pending placement a command overwrites, if any. -/
def placementTarget : Command → Option String
  | .place_component a => some a.refdes
  | .place_near a => some a.refdes
  | _ => none

/-! ### Concrete inputs used by counterexamples and witnesses -/

/-- The placer configuration `GridPlacer()` with its default arguments
(`grid_step=10`, `margin=5`, `sheet_max_x=500`, `wrap_y_step=50`). -/
def defaultGrid : GridPlacer := {}

/-- A one-part catalog: a resistor with pins 1/2 that allows `set_value`. -/
def resCatalog : Catalog :=
  [("res", { pins := ["1", "2"], set_value := true,
             fusion_add := some "ADD RES" })]

/-- Add a resistor, then disconnect one of its pins: reaches the
`cmd.args.args.pin` expression in the validator. -/
def c2doc : CommandsDoc :=
  { commands := [ .add_component { part_id := "res", refdes := "R1" },
                  .disconnect { refdes := "R1", pin := "1", net_name := "N" } ] }

/-- A snapshot component at the non-grid-aligned x = 2 (top-level `x`/`y`
as the placer's own snapshot dicts carry them). -/
def c5snap : PSnapshot :=
  { components := [ { refdes := some "R1", x := some 2, y := some 0,
                      kind := some "resistor" } ] }

/-- A resistor to place anchored at `R1` with zero offset. -/
def c5part : PartToPlace :=
  { refdes := "R2", part_id := "r", kind := "resistor",
    anchor_refdes := some "R1" }

/-- A snapshot containing only component `U1`. -/
def c8snap : SnapshotDoc := { components := [ { refdes := "U1", pins := ["1"] } ] }

/-- A single `place_component` for the snapshot-only refdes `U1`. -/
def c8doc : CommandsDoc :=
  { commands := [ .place_component { refdes := "U1", x := 10, y := 20 } ] }

/-- A snapshot component with no `part_id`. -/
def c9snap : SnapshotDoc := { components := [ { refdes := "R9" } ] }

/-- `set_value` on the snapshot component whose `part_id` is absent. -/
def c9doc : CommandsDoc :=
  { commands := [ .set_value { refdes := "R9", value := "120" } ] }

/-- A snapshot with one component `R1` with pin 1 and no nets. -/
def c10snap : SnapshotDoc :=
  { components := [ { refdes := "R1", pins := ["1"] } ] }

/-- Connect to the unknown net `N` (auto-created), rename `N` away, then
connect to `N` again. -/
def c10doc : CommandsDoc :=
  { commands := [ .connect { refdes := "R1", pin := "1", net_name := "N" },
                  .rename_net { from_ := "N", to_ := "M" },
                  .connect { refdes := "R1", pin := "1", net_name := "N" } ] }

/-- The validator state reached after a first `connect` to the unknown net
`N` from the empty state: one refdes error, one auto-create warning, and
`N` recorded as known. -/
def c10s1 : VState :=
  { errors := [.connectRefdesMissing 0 "R1"],
    warnings := [.connectNetAutoCreate 0 "N"],
    known_nets := ["N"] }

/-- Snapshot for the rename-chain witness: component `R1` and net `N`. -/
def c3snap : SnapshotDoc :=
  { components := [ { refdes := "R1", pins := ["1"] } ],
    nets := [ { net_name := "N" } ] }

/-- Rename `N` to `M`, then `M` to `P`, then connect to `N`: the emitted
`CONNECT` must carry `P`. -/
def c3doc : CommandsDoc :=
  { commands := [ .rename_net { from_ := "N", to_ := "M" },
                  .rename_net { from_ := "M", to_ := "P" },
                  .connect { refdes := "R1", pin := "1", net_name := "N" } ] }

/-- Snapshot for the phase-order witness. -/
def c1snap : SnapshotDoc :=
  { components := [ { refdes := "U9", pins := ["1"] } ],
    nets := [ { net_name := "VDD" } ] }

/-- A document exercising every phase, deliberately out of phase order. -/
def c1doc : CommandsDoc :=
  { commands := [ .remove_component { refdes := "U9" },
                  .connect { refdes := "U9", pin := "1", net_name := "VDD" },
                  .add_component { part_id := "res", refdes := "R1" },
                  .set_value { refdes := "R1", value := "120" },
                  .rename_net { from_ := "VDD", to_ := "VCC" } ] }

/-- A document that fails validation (`remove_component` of an unknown
refdes). -/
def c4doc : CommandsDoc :=
  { commands := [ .remove_component { refdes := "X" } ] }

/-- Add a resistor and place it explicitly at (30, 40). -/
def c8wdoc : CommandsDoc :=
  { commands := [ .add_component { part_id := "res", refdes := "R1" },
                  .place_component { refdes := "R1", x := 30, y := 40 } ] }

/-! ### Association-list and set lemmas -/

theorem lookupA_updA_self {α : Type} (m : List (String × α)) (k : String)
    (v : α) : lookupA (updA m k v) k = some v := by
  induction m with
  | nil => simp [updA, lookupA]
  | cons p rest ih =>
    obtain ⟨k2, v2⟩ := p
    by_cases hk : k2 = k
    · subst hk
      simp [updA, lookupA]
    · simp [updA, hk, lookupA, Ne.symm hk, ih]

theorem lookupA_updA_ne {α : Type} (m : List (String × α)) (k : String)
    (v : α) (k' : String) (h : k' ≠ k) :
    lookupA (updA m k v) k' = lookupA m k' := by
  induction m with
  | nil => simp [updA, lookupA, h]
  | cons p rest ih =>
    obtain ⟨k2, v2⟩ := p
    by_cases hk : k2 = k
    · have hx : k' ≠ k2 := fun e => h (e.trans hk)
      simp [updA, if_pos hk, lookupA, h, hx]
    · by_cases hk2 : k' = k2 <;> simp [updA, hk, lookupA, hk2, ih]

theorem keys_updA {α : Type} (m : List (String × α)) (k : String) (v : α) :
    (updA m k v).map Prod.fst =
      if (lookupA m k).isSome then m.map Prod.fst
      else m.map Prod.fst ++ [k] := by
  induction m with
  | nil => simp [updA, lookupA]
  | cons p rest ih =>
    obtain ⟨k2, v2⟩ := p
    by_cases hk : k2 = k
    · subst hk
      simp [updA, lookupA]
    · have hx : ¬k = k2 := fun e => hk e.symm
      simp only [updA, if_neg hk, List.map_cons, lookupA, if_neg hx, ih]
      split <;> simp_all

theorem mem_keys_iff_lookupA {α : Type} (m : List (String × α))
    (k : String) : k ∈ m.map Prod.fst ↔ (lookupA m k).isSome := by
  induction m with
  | nil => simp [lookupA]
  | cons p rest ih =>
    obtain ⟨k2, v2⟩ := p
    by_cases hk : k = k2 <;> simp [lookupA, hk, ih]

theorem nodup_keys_updA {α : Type} (m : List (String × α)) (k : String)
    (v : α) (h : (m.map Prod.fst).Nodup) :
    ((updA m k v).map Prod.fst).Nodup := by
  rw [keys_updA]
  split
  · exact h
  · rename_i hns
    have hk : k ∉ m.map Prod.fst := by
      rw [mem_keys_iff_lookupA]
      simpa using hns
    simp [List.nodup_append, h, hk]

theorem lookupA_updAll_of_not_mem {α : Type} (m2 : List (String × α))
    (k : String) :
    ∀ m1, lookupA m2 k = none →
      lookupA (updAll m1 m2) k = lookupA m1 k := by
  induction m2 with
  | nil => intro m1 _; rfl
  | cons p rest ih =>
    intro m1 h
    obtain ⟨k2, v2⟩ := p
    have hk : k ≠ k2 := by
      intro e
      simp [lookupA, e] at h
    have hr : lookupA rest k = none := by
      simpa [lookupA, hk] using h
    show lookupA (updAll (updA m1 k2 v2) rest) k = _
    rw [ih _ hr, lookupA_updA_ne _ _ _ _ hk]

theorem lookupA_updAll_of_mem {α : Type} (m2 : List (String × α))
    (k : String) (v : α) :
    ∀ m1, (m2.map Prod.fst).Nodup → lookupA m2 k = some v →
      lookupA (updAll m1 m2) k = some v := by
  induction m2 with
  | nil => intro m1 _ h; simp [lookupA] at h
  | cons p rest ih =>
    intro m1 hnd h
    obtain ⟨k2, v2⟩ := p
    simp only [List.map_cons, List.nodup_cons] at hnd
    obtain ⟨hk2, hndr⟩ := hnd
    by_cases hk : k = k2
    · subst hk
      have hv : v2 = v := by simpa [lookupA] using h
      subst hv
      have hrest : lookupA rest k = none := by
        cases hl : lookupA rest k with
        | none => rfl
        | some w =>
          exact absurd ((mem_keys_iff_lookupA rest k).mpr (by rw [hl]; rfl))
            hk2
      show lookupA (updAll (updA m1 k v2) rest) k = _
      rw [lookupA_updAll_of_not_mem _ _ _ hrest, lookupA_updA_self]
    · have hr : lookupA rest k = some v := by
        simpa [lookupA, hk] using h
      exact ih (updA m1 k2 v2) hndr hr

theorem mem_addS {s : List String} {x y : String} :
    y ∈ addS s x ↔ y ∈ s ∨ y = x := by
  by_cases h : x ∈ s
  · simp only [addS, if_pos h]
    exact ⟨Or.inl, fun h2 => h2.elim id (fun e => e ▸ h)⟩
  · simp [addS, if_neg h]

theorem mem_discardS {s : List String} {x y : String} :
    y ∈ discardS s x ↔ y ∈ s ∧ y ≠ x := by
  simp [discardS, List.mem_filter]

/-! ### Claim theorems -/

/-- C7: `snap_to_grid` rounds half to even — with `grid_step = 10`,
`(5,5) ↦ (0,0)` and `(25,25) ↦ (20,20)` (ties to the even multiple), while
`(6,6) ↦ (10,10)` and `(26,26) ↦ (30,30)`. -/
theorem c7_snap_to_grid_half_even :
    snap_to_grid defaultGrid 5 5 = (0, 0) ∧
    snap_to_grid defaultGrid 25 25 = (20, 20) ∧
    snap_to_grid defaultGrid 6 6 = (10, 10) ∧
    snap_to_grid defaultGrid 26 26 = (30, 30) := by
  refine ⟨?_, ?_, ?_, ?_⟩ <;> with_unfolding_all rfl

/-- C6: `place_all` is deterministic — two calls with identical placer
configuration, part list and snapshot return identical placement maps (the
embedding is a pure function of exactly these inputs; the source keeps no
other state and iterates only insertion-ordered structures). -/
theorem c6_place_all_deterministic (gp1 gp2 : GridPlacer)
    (parts1 parts2 : List PartToPlace) (snap1 snap2 : Option PSnapshot)
    (hgp : gp1 = gp2) (hparts : parts1 = parts2) (hsnap : snap1 = snap2) :
    place_all gp1 parts1 snap1 = place_all gp2 parts2 snap2 := by
  subst hgp; subst hparts; subst hsnap; rfl

/-- Witness for C6 at a concrete placer input. -/
theorem c6_place_all_deterministic_witness :
    place_all defaultGrid [c5part] (some c5snap) =
      place_all defaultGrid [c5part] (some c5snap) :=
  c6_place_all_deterministic defaultGrid defaultGrid [c5part] [c5part]
    (some c5snap) (some c5snap) rfl rfl rfl

/-- C2 (the code, not the claim): `validate_commands` raises
`AttributeError` on a disconnect whose refdes was added earlier in the same
document and whose part exists in the catalog — the `cmd.args.args.pin`
typo at validate.py:202 is reached and evaluated. -/
theorem c2_validate_disconnect_raises :
    validate_commands c2doc resCatalog none = .error disconnectArgsBug := by
  rfl

/-- C5 counterexample: placing a resistor anchored to a snapshot component
at the off-grid x = 2 yields placement (40, 0); its margin-padded
rectangle (35, −5, 40, 20) does intersect the occupied rectangle
(−3, −5, 40, 20) built from the existing component — the slot scan tests
the *unpadded* candidate rectangle, so padded rectangles may overlap. -/
theorem c5_counterexample :
    place_all defaultGrid [c5part] (some c5snap) =
      [("R2", { x := 40, y := 0, rotation := 0, layer := Layer.Top })] ∧
    build_occupied defaultGrid (some c5snap) =
      [{ x := -3, y := -5, w := 40, h := 20 }] ∧
    Rect.intersects
      { x := 40 - 5, y := 0 - 5, w := 30 + 2 * 5, h := 10 + 2 * 5 }
      { x := -3, y := -5, w := 40, h := 20 } = true := by
  refine ⟨by with_unfolding_all rfl, by with_unfolding_all rfl,
    by with_unfolding_all rfl⟩

/-- C8 counterexample: a `place_component` whose refdes exists only in the
snapshot compiles successfully but emits *no* actions at all — in
particular no `PLACE` carrying the commanded coordinates (10, 20): the
compiler emits `PLACE` only for refdes added in the same document. -/
theorem c8_counterexample :
    compile_to_actions c8doc [] (some c8snap) =
      .ok ({ actions := [] }, []) ∧
    ¬ ∃ acts warns, compile_to_actions c8doc [] (some c8snap) =
        .ok (acts, warns) ∧
      Action.place "U1" 10 20 0 Layer.Top ∈ acts.actions := by
  refine ⟨by with_unfolding_all rfl, ?_⟩
  rintro ⟨acts, warns, heq, hmem⟩
  have h0 : compile_to_actions c8doc [] (some c8snap) =
      .ok ({ actions := [] }, []) := by with_unfolding_all rfl
  rw [h0] at heq
  simp only [Except.ok.injEq, Prod.mk.injEq] at heq
  obtain ⟨h1, _⟩ := heq
  subst h1
  simp at hmem

/-- C9 counterexample: `set_value` on a known snapshot component whose
`part_id` is absent produces *no* validation error (the owning part cannot
be resolved, and the check is silently skipped), contradicting the claim
that an error is produced unless the owning part declares
`set_value = true`. -/
theorem c9_counterexample :
    validate_commands c9doc [] (some c9snap) =
      .ok { ok := true, errors := [], warnings := [] } ∧
    ∀ vr, validate_commands c9doc [] (some c9snap) = .ok vr →
      vr.errors = [] := by
  refine ⟨by rfl, ?_⟩
  intro vr h
  have h0 : validate_commands c9doc [] (some c9snap) =
      .ok { ok := true, errors := [], warnings := [] } := by rfl
  rw [h0] at h
  simp only [Except.ok.injEq] at h
  rw [← h]

/-- C10 counterexample: connect to unknown `N` (auto-create warning at
index 0), rename `N` away, then connect to `N` again — the validator
emits a *second* auto-create warning (index 2), so "a second connect to
the same name later in the same document produces no further warning" is
false as stated. -/
theorem c10_counterexample :
    validate_commands c10doc [] (some c10snap) =
      .ok { ok := true, errors := [],
            warnings := [.connectNetAutoCreate 0 "N",
                         .connectNetAutoCreate 2 "N"] } ∧
    countAuto "N" [VMsg.connectNetAutoCreate 0 "N",
                   VMsg.connectNetAutoCreate 2 "N"] = 2 := by
  refine ⟨by rfl, by rfl⟩

/-- Inversion: a successful compile means validation returned `ok = true`
and the result is the whole built document. -/
theorem compile_ok_inv (doc : CommandsDoc) (parts : Catalog)
    (snapshot : Option SnapshotDoc) (acts : ActionsDoc) (warns : List String)
    (h : compile_to_actions doc parts snapshot = .ok (acts, warns)) :
    ∃ vr, validate_commands doc parts snapshot = .ok vr ∧ vr.ok = true ∧
      acts = (buildCompiled doc parts snapshot vr).1 ∧
      warns = (buildCompiled doc parts snapshot vr).2 := by
  unfold compile_to_actions at h
  revert h
  cases hv : validate_commands doc parts snapshot with
  | error e => intro h; simp at h
  | ok vr =>
    intro h
    by_cases hok : vr.ok
    · simp only [hok, Bool.not_true] at h
      simp at h
      exact ⟨vr, rfl, hok, by rw [h], by rw [h]⟩
    · rw [Bool.not_eq_true] at hok
      simp [hok] at h

/-- C4: `compile_to_actions` is all-or-nothing — whenever the validator
reports at least one error (`ok = false`), it raises `ValueError` carrying
the full formatted error list and produces no actions; on success it
returns the complete built `ActionsDoc` together with the validator's
warnings (as a prefix of the returned warning list). -/
theorem c4_compile_all_or_nothing (doc : CommandsDoc) (parts : Catalog)
    (snapshot : Option SnapshotDoc) (vr : ValidationResult)
    (h : validate_commands doc parts snapshot = .ok vr) :
    (vr.ok = false →
      compile_to_actions doc parts snapshot =
        .error (.valueError
          ("Commands validation failed:\n" ++ format_validation vr))) ∧
    (vr.ok = true →
      compile_to_actions doc parts snapshot =
        .ok (buildCompiled doc parts snapshot vr) ∧
      ∃ extra, (buildCompiled doc parts snapshot vr).2 =
        vr.warnings.map VMsg.render ++ extra) := by
  constructor
  · intro hok
    unfold compile_to_actions
    rw [h]
    simp [hok]
  · intro hok
    refine ⟨?_, ?_⟩
    · unfold compile_to_actions
      rw [h]
      simp [hok]
    · refine ⟨(compilerPassA doc snapshot).warnings ++
        doc.commands.filterMap (addWarningOf parts), ?_⟩
      show vr.warnings.map VMsg.render ++
        (compilerPassA doc snapshot).warnings ++
        doc.commands.filterMap (addWarningOf parts) = _
      rw [List.append_assoc]

/-- Witness for C4: a `remove_component` of an unknown refdes fails
validation, and compilation raises `ValueError` with the formatted list. -/
theorem c4_compile_all_or_nothing_witness :
    compile_to_actions c4doc [] none =
      .error (.valueError
        ("Commands validation failed:\n" ++ format_validation
          { ok := false, errors := [.removeRefdesMissing 0 "X"],
            warnings := [] })) :=
  (c4_compile_all_or_nothing c4doc [] none
    { ok := false, errors := [.removeRefdesMissing 0 "X"], warnings := [] }
    (by rfl)).1 rfl

theorem typeTag_of_filterMap {l : List Command} {f : Command → Option Action}
    {tag : String} (hf : ∀ c a, f c = some a → a.typeTag = tag) :
    ∀ a ∈ l.filterMap f, a.typeTag = tag := by
  intro a ha
  obtain ⟨c, _, hc⟩ := List.mem_filterMap.mp ha
  exact hf c a hc

theorem renameActionOf_tag : ∀ c a, renameActionOf c = some a →
    a.typeTag = "RENAME_NET" := by
  intro c a hc
  cases c <;> simp_all [renameActionOf, Action.typeTag]
  subst hc
  rfl

theorem addActionOf_tag (parts : Catalog) : ∀ c a,
    addActionOf parts c = some a → a.typeTag = "ADD" := by
  intro c a hc
  cases c <;> simp only [addActionOf] at hc <;> try exact absurd hc (by simp)
  rename_i args
  cases hl : lookupA parts args.part_id with
  | none => simp [hl] at hc
  | some entry =>
    simp only [hl] at hc
    by_cases hf : entry.fusion_add.getD "" = ""
    · simp [hf] at hc
    · simp only [if_neg hf, Option.some.injEq] at hc
      rw [← hc]
      rfl

theorem setValueActionOf_tag : ∀ c a, setValueActionOf c = some a →
    a.typeTag = "SET_VALUE" := by
  intro c a hc
  cases c <;> simp_all [setValueActionOf, Action.typeTag]
  subst hc
  rfl

theorem connDisActionOf_tag (net_alias : List (String × String)) : ∀ c a,
    connDisActionOf net_alias c = some a →
      a.typeTag = "CONNECT" ∨ a.typeTag = "DISCONNECT" := by
  intro c a hc
  cases c <;> simp_all [connDisActionOf, Action.typeTag]
  · subst hc; exact Or.inl rfl
  · subst hc; exact Or.inr rfl

theorem removeActionOf_tag : ∀ c a, removeActionOf c = some a →
    a.typeTag = "REMOVE" := by
  intro c a hc
  cases c <;> simp_all [removeActionOf, Action.typeTag]
  subst hc
  rfl

/-- C1: for every document that passes validation and compiles, the
emitted actions are exactly six phases in the fixed order — all
`RENAME_NET` first, then all `ADD` (the `filterMap` over `doc.commands`
preserves document order), then all `SET_VALUE`, then all `PLACE`, then
all `CONNECT`/`DISCONNECT` interleaved in their original relative document
order (a single `filterMap` over `doc.commands`), then all `REMOVE`. -/
theorem c1_phase_order (doc : CommandsDoc) (parts : Catalog)
    (snapshot : Option SnapshotDoc) (acts : ActionsDoc)
    (warns : List String)
    (h : compile_to_actions doc parts snapshot = .ok (acts, warns)) :
    ∃ ps,
      acts.actions =
        doc.commands.filterMap renameActionOf ++
        doc.commands.filterMap (addActionOf parts) ++
        doc.commands.filterMap setValueActionOf ++
        ps ++
        doc.commands.filterMap
          (connDisActionOf (compilerPassA doc snapshot).net_alias) ++
        doc.commands.filterMap removeActionOf ∧
      (∀ a ∈ doc.commands.filterMap renameActionOf,
        a.typeTag = "RENAME_NET") ∧
      (∀ a ∈ doc.commands.filterMap (addActionOf parts),
        a.typeTag = "ADD") ∧
      (∀ a ∈ doc.commands.filterMap setValueActionOf,
        a.typeTag = "SET_VALUE") ∧
      (∀ a ∈ ps, a.typeTag = "PLACE") ∧
      (∀ a ∈ doc.commands.filterMap
          (connDisActionOf (compilerPassA doc snapshot).net_alias),
        a.typeTag = "CONNECT" ∨ a.typeTag = "DISCONNECT") ∧
      (∀ a ∈ doc.commands.filterMap removeActionOf,
        a.typeTag = "REMOVE") := by
  obtain ⟨vr, -, -, hacts, -⟩ :=
    compile_ok_inv doc parts snapshot acts warns h
  refine ⟨compilerPlaceActs doc parts snapshot, ?_, ?_, ?_, ?_, ?_, ?_, ?_⟩
  · rw [hacts]
    rfl
  · exact typeTag_of_filterMap renameActionOf_tag
  · exact typeTag_of_filterMap (addActionOf_tag parts)
  · exact typeTag_of_filterMap setValueActionOf_tag
  · intro a ha
    simp only [compilerPlaceActs] at ha
    obtain ⟨r, -, hr⟩ := List.mem_filterMap.mp ha
    obtain ⟨pl, -, hpl⟩ := Option.map_eq_some'.mp hr
    rw [← hpl]
    rfl
  · intro a ha
    obtain ⟨c, -, hc⟩ := List.mem_filterMap.mp ha
    exact connDisActionOf_tag _ c a hc
  · exact typeTag_of_filterMap removeActionOf_tag

/-- Witness for C1: a five-command document written out of phase order
(remove, connect, add, set_value, rename) compiles to the phases
RENAME_NET, ADD, SET_VALUE, PLACE, CONNECT, REMOVE. -/
theorem c1_phase_order_witness :
    ∃ ps,
      ({ actions := [.rename_net "VDD" "VCC", .add "ADD RES" "R1",
          .set_value "R1" "120", .place "R1" 60 0 0 Layer.Top,
          .connect "U9" "1" "VCC", .remove "U9"] } : ActionsDoc).actions =
        c1doc.commands.filterMap renameActionOf ++
        c1doc.commands.filterMap (addActionOf resCatalog) ++
        c1doc.commands.filterMap setValueActionOf ++
        ps ++
        c1doc.commands.filterMap
          (connDisActionOf (compilerPassA c1doc (some c1snap)).net_alias) ++
        c1doc.commands.filterMap removeActionOf ∧
      (∀ a ∈ c1doc.commands.filterMap renameActionOf,
        a.typeTag = "RENAME_NET") ∧
      (∀ a ∈ c1doc.commands.filterMap (addActionOf resCatalog),
        a.typeTag = "ADD") ∧
      (∀ a ∈ c1doc.commands.filterMap setValueActionOf,
        a.typeTag = "SET_VALUE") ∧
      (∀ a ∈ ps, a.typeTag = "PLACE") ∧
      (∀ a ∈ c1doc.commands.filterMap
          (connDisActionOf (compilerPassA c1doc (some c1snap)).net_alias),
        a.typeTag = "CONNECT" ∨ a.typeTag = "DISCONNECT") ∧
      (∀ a ∈ c1doc.commands.filterMap removeActionOf,
        a.typeTag = "REMOVE") :=
  c1_phase_order c1doc resCatalog (some c1snap) _ []
    (by with_unfolding_all rfl)

/-- The visited-set loop of `normalize_net_name` follows any duplicate-free
alias chain disjoint from the visited set to its terminal, given enough
fuel. -/
theorem normalizeGo_chain (net_alias : List (String × String)) :
    ∀ (chain : List String) (visited : List String) (fuel : Nat)
      (n0 final : String),
      isChain net_alias chain = true → chain.Nodup →
      (∀ x ∈ chain, x ∉ visited) →
      chain.head? = some n0 → chain.getLast? = some final →
      chain.length ≤ fuel →
      normalizeGo net_alias fuel visited n0 = final := by
  intro chain
  induction chain with
  | nil =>
    intro visited fuel n0 final _ _ _ hh _ _
    simp at hh
  | cons n rest ih =>
    intro visited fuel n0 final hc hnd hvis hh hl hlen
    obtain rfl : n = n0 := by simpa using hh
    cases rest with
    | nil =>
      obtain rfl : n = final := by simpa using hl
      have hnone : lookupA net_alias n = none := by
        simpa [isChain, Option.isNone_iff_eq_none] using hc
      cases fuel with
      | zero => rfl
      | succ f => simp [normalizeGo, hnone]
    | cons m rest2 =>
      have hc2 : lookupA net_alias n = some m ∧
          isChain net_alias (m :: rest2) = true := by
        simpa [isChain, Bool.and_eq_true] using hc
      cases fuel with
      | zero => simp at hlen
      | succ f =>
        have hnv : n ∉ visited := hvis n (by simp)
        simp only [normalizeGo, hc2.1, if_neg hnv]
        apply ih (n :: visited) f m final hc2.2
          ((List.nodup_cons.mp hnd).2)
        · intro x hx
          simp only [List.mem_cons, not_or]
          exact ⟨fun e => (List.nodup_cons.mp hnd).1 (e ▸ hx),
            hvis x (List.mem_cons_of_mem n hx)⟩
        · simp
        · simpa [List.getLast?_cons_cons] using hl
        · simpa using Nat.le_of_succ_le_succ hlen

/-- Every element of a chain except the last is an alias key. -/
theorem isChain_front_keys (net_alias : List (String × String)) :
    ∀ chain, isChain net_alias chain = true →
      ∀ x ∈ chain.dropLast, (lookupA net_alias x).isSome := by
  intro chain
  induction chain with
  | nil =>
    intro h
    simp [isChain] at h
  | cons n rest ih =>
    intro hc x hx
    cases rest with
    | nil => simp at hx
    | cons m rest2 =>
      have hc2 : lookupA net_alias n = some m ∧
          isChain net_alias (m :: rest2) = true := by
        simpa [isChain, Bool.and_eq_true] using hc
      rw [show (n :: m :: rest2).dropLast = n :: (m :: rest2).dropLast
        from rfl] at hx
      rcases List.mem_cons.mp hx with rfl | hx2
      · rw [hc2.1]; rfl
      · exact ih hc2.2 x hx2

/-- A duplicate-free chain has at most one element per alias entry plus
its terminal. -/
theorem isChain_length_le (net_alias : List (String × String))
    (chain : List String) (hc : isChain net_alias chain = true)
    (hnd : chain.Nodup) : chain.length ≤ net_alias.length + 1 := by
  have hsub : chain.dropLast ⊆ net_alias.map Prod.fst := by
    intro x hx
    rw [mem_keys_iff_lookupA]
    exact isChain_front_keys net_alias chain hc x hx
  have hnd2 : chain.dropLast.Nodup :=
    List.Nodup.sublist (List.dropLast_sublist chain) hnd
  have hle := (List.subperm_of_subset hnd2 hsub).length_le
  rw [List.length_dropLast, List.length_map] at hle
  omega

/-- C3: in a successfully compiled document, a `connect` (or `disconnect`)
whose `net_name` heads a rename chain of two or more links (a
duplicate-free `isChain` of length ≥ 3 over the collected alias map,
ending at `final`) is emitted as a `CONNECT` (`DISCONNECT`) action carrying
the final renamed name. -/
theorem c3_rename_chain_propagates (doc : CommandsDoc) (parts : Catalog)
    (snapshot : Option SnapshotDoc) (acts : ActionsDoc)
    (warns : List String) (a : ConnectArgs) (chain : List String)
    (final : String)
    (h : compile_to_actions doc parts snapshot = .ok (acts, warns))
    (hchain : isChain (compilerPassA doc snapshot).net_alias chain = true)
    (hnd : chain.Nodup)
    (hhead : chain.head? = some a.net_name)
    (hlast : chain.getLast? = some final)
    (_hlen : 3 ≤ chain.length) :
    (Command.connect a ∈ doc.commands →
      Action.connect a.refdes a.pin final ∈ acts.actions) ∧
    (Command.disconnect a ∈ doc.commands →
      Action.disconnect a.refdes a.pin final ∈ acts.actions) := by
  obtain ⟨vr, -, -, hacts, -⟩ :=
    compile_ok_inv doc parts snapshot acts warns h
  have hnorm : normalize_net_name a.net_name
      (compilerPassA doc snapshot).net_alias = final := by
    apply normalizeGo_chain _ chain [] _ _ _ hchain hnd (by simp) hhead
      hlast
    have := isChain_length_le _ chain hchain hnd
    omega
  constructor <;> intro hmem
  · have hin : Action.connect a.refdes a.pin final ∈
        doc.commands.filterMap
          (connDisActionOf (compilerPassA doc snapshot).net_alias) :=
      List.mem_filterMap.mpr
        ⟨.connect a, hmem, by simp [connDisActionOf, hnorm]⟩
    rw [hacts]
    show _ ∈ doc.commands.filterMap renameActionOf ++
      doc.commands.filterMap (addActionOf parts) ++
      doc.commands.filterMap setValueActionOf ++
      compilerPlaceActs doc parts snapshot ++
      doc.commands.filterMap
        (connDisActionOf (compilerPassA doc snapshot).net_alias) ++
      doc.commands.filterMap removeActionOf
    simp only [List.mem_append]
    exact Or.inl (Or.inr hin)
  · have hin : Action.disconnect a.refdes a.pin final ∈
        doc.commands.filterMap
          (connDisActionOf (compilerPassA doc snapshot).net_alias) :=
      List.mem_filterMap.mpr
        ⟨.disconnect a, hmem, by simp [connDisActionOf, hnorm]⟩
    rw [hacts]
    show _ ∈ doc.commands.filterMap renameActionOf ++
      doc.commands.filterMap (addActionOf parts) ++
      doc.commands.filterMap setValueActionOf ++
      compilerPlaceActs doc parts snapshot ++
      doc.commands.filterMap
        (connDisActionOf (compilerPassA doc snapshot).net_alias) ++
      doc.commands.filterMap removeActionOf
    simp only [List.mem_append]
    exact Or.inl (Or.inr hin)

/-- Witness for C3: renaming `N → M → P` and connecting to `N` emits a
`CONNECT` carrying `P`. -/
theorem c3_rename_chain_propagates_witness :
    (Command.connect { refdes := "R1", pin := "1", net_name := "N" } ∈
        c3doc.commands →
      Action.connect "R1" "1" "P" ∈
        ({ actions := [.rename_net "N" "M", .rename_net "M" "P",
            .connect "R1" "1" "P"] } : ActionsDoc).actions) ∧
    (Command.disconnect { refdes := "R1", pin := "1", net_name := "N" } ∈
        c3doc.commands →
      Action.disconnect "R1" "1" "P" ∈
        ({ actions := [.rename_net "N" "M", .rename_net "M" "P",
            .connect "R1" "1" "P"] } : ActionsDoc).actions) :=
  c3_rename_chain_propagates c3doc [] (some c3snap) _ _
    { refdes := "R1", pin := "1", net_name := "N" } ["N", "M", "P"] "P"
    (by with_unfolding_all rfl) (by rfl) (by simp) (by rfl) (by rfl)
    (by simp)

/-- When the slot scan returns within its fuel, the returned position's
unpadded candidate rectangle intersects no occupied rectangle. -/
theorem findFreeSlotGo_no_collision (gp : GridPlacer)
    (occupied : List Rect) (width height start_x : ℚ) :
    ∀ (fuel : Nat) (x0 y0 x y : ℚ),
      findFreeSlotGo gp occupied width height start_x x0 y0 fuel =
        some (x, y) →
      ∀ r ∈ occupied,
        Rect.intersects { x := x, y := y, w := width, h := height } r =
          false := by
  intro fuel
  induction fuel with
  | zero =>
    intro x0 y0 x y h
    simp [findFreeSlotGo] at h
  | succ f ih =>
    intro x0 y0 x y h r hr
    simp only [findFreeSlotGo] at h
    by_cases hcol : occupied.any (fun occ =>
      Rect.intersects { x := x0, y := y0, w := width, h := height } occ)
    · rw [if_pos hcol] at h
      by_cases hwrap : x0 + gp.grid_step + width > gp.sheet_max_x
      · rw [if_pos hwrap] at h
        exact ih _ _ x y h r hr
      · rw [if_neg hwrap] at h
        exact ih _ _ x y h r hr
    · rw [if_neg hcol] at h
      obtain ⟨rfl, rfl⟩ : x0 = x ∧ y0 = y := by simpa using h
      have hcol2 : occupied.any (fun occ =>
          Rect.intersects { x := x0, y := y0, w := width, h := height }
            occ) = false := by
        simpa using hcol
      have := List.any_eq_false.mp hcol2 r hr
      simpa using this

/-- C5 (amended): one step of `place_all` — whenever the slot search for
the head part succeeds within its attempt cap, the part is committed at
the returned position and its *unpadded* rectangle intersects none of the
occupied rectangles present at that moment (the padded snapshot
rectangles and the padded rectangles of all earlier placements); the
padded rectangles themselves may overlap (see `c5_counterexample`), and on
fuel exhaustion the fallback origin may overlap outright. -/
theorem c5_place_step_no_collision (gp : GridPlacer) (occupied : List Rect)
    (positions : List (String × (ℚ × ℚ))) (base_x base_y : ℚ)
    (acc : List (String × Placement)) (part : PartToPlace)
    (rest : List PartToPlace) (x y : ℚ)
    (h : findFreeSlotGo gp occupied
        (((partCells gp part).1 : ℚ) * gp.grid_step)
        (((partCells gp part).2 : ℚ) * gp.grid_step)
        (snap_to_grid gp
          (preferredOrigin gp positions base_x base_y part).1
          (preferredOrigin gp positions base_x base_y part).2).1
        (snap_to_grid gp
          (preferredOrigin gp positions base_x base_y part).1
          (preferredOrigin gp positions base_x base_y part).2).1
        (snap_to_grid gp
          (preferredOrigin gp positions base_x base_y part).1
          (preferredOrigin gp positions base_x base_y part).2).2
        1000 = some (x, y)) :
    (∀ r ∈ occupied,
      Rect.intersects
        { x := x, y := y, w := ((partCells gp part).1 : ℚ) * gp.grid_step,
          h := ((partCells gp part).2 : ℚ) * gp.grid_step } r = false) ∧
    placeAllGo gp occupied positions base_x base_y acc (part :: rest) =
      placeAllGo gp
        (occupied ++ [⟨x - gp.margin, y - gp.margin,
          ((partCells gp part).1 : ℚ) * gp.grid_step + 2 * gp.margin,
          ((partCells gp part).2 : ℚ) * gp.grid_step + 2 * gp.margin⟩])
        (updA positions part.refdes (x, y)) base_x base_y
        (updA acc part.refdes
          { x := x, y := y, rotation := clamp_rotation part.rotation,
            layer := Layer.Top }) rest := by
  have hxy : find_free_slot gp occupied
      (preferredOrigin gp positions base_x base_y part)
      (partCells gp part) = (x, y) := by
    simp only [find_free_slot, h]
  constructor
  · exact fun r hr =>
      findFreeSlotGo_no_collision gp occupied _ _ _ 1000 _ _ x y h r hr
  · simp only [placeAllGo, hxy]

/-- Witness for the amended C5 at the counterexample's inputs: the slot
search succeeds at (40, 0) and the unpadded rectangle avoids the occupied
rectangle. -/
theorem c5_place_step_no_collision_witness :
    (∀ r ∈ [({ x := -3, y := -5, w := 40, h := 20 } : Rect)],
      Rect.intersects
        { x := 40, y := 0,
          w := ((partCells defaultGrid c5part).1 : ℚ) *
            defaultGrid.grid_step,
          h := ((partCells defaultGrid c5part).2 : ℚ) *
            defaultGrid.grid_step } r = false) ∧
    placeAllGo defaultGrid [{ x := -3, y := -5, w := 40, h := 20 }]
        [("R1", (2, 0))] 97 0 [] (c5part :: []) =
      placeAllGo defaultGrid
        ([{ x := -3, y := -5, w := 40, h := 20 }] ++
          [⟨40 - defaultGrid.margin, 0 - defaultGrid.margin,
            ((partCells defaultGrid c5part).1 : ℚ) *
              defaultGrid.grid_step + 2 * defaultGrid.margin,
            ((partCells defaultGrid c5part).2 : ℚ) *
              defaultGrid.grid_step + 2 * defaultGrid.margin⟩])
        (updA [("R1", (2, 0))] c5part.refdes (40, 0)) 97 0
        (updA [] c5part.refdes
          { x := 40, y := 0, rotation := clamp_rotation c5part.rotation,
            layer := Layer.Top }) [] :=
  c5_place_step_no_collision defaultGrid
    [{ x := -3, y := -5, w := 40, h := 20 }] [("R1", (2, 0))] 97 0 []
    c5part [] 40 0 (by with_unfolding_all rfl)

theorem connectPinPhase_known_nets (parts : Catalog)
    (comps : List (String × SnapshotComponent)) (s : VState) (i : Nat)
    (a : ConnectArgs) :
    (connectPinPhase parts comps s i a).known_nets = s.known_nets := by
  unfold connectPinPhase
  repeat' split
  all_goals rfl

theorem connectPinPhase_countAuto (parts : Catalog)
    (comps : List (String × SnapshotComponent)) (s : VState) (i : Nat)
    (a : ConnectArgs) (n : String) :
    countAuto n (connectPinPhase parts comps s i a).warnings =
      countAuto n s.warnings := by
  unfold connectPinPhase
  repeat' split
  all_goals simp [countAuto, List.countP_append]

/-- The validator's `connect` step in closed form: run the pin phase, then
auto-create the net (with a warning) iff it is unknown. -/
theorem connect_step_effect (parts : Catalog) (snapshot : Option SnapshotDoc)
    (comps : List (String × SnapshotComponent)) (s : VState) (i : Nat)
    (a : ConnectArgs) :
    validateStep parts snapshot comps s i (.connect a) =
      .ok (if a.net_name ∈ s.known_nets
        then connectPinPhase parts comps s i a
        else { connectPinPhase parts comps s i a with
          warnings := (connectPinPhase parts comps s i a).warnings ++
            [.connectNetAutoCreate i a.net_name],
          known_nets := addS (connectPinPhase parts comps s i a).known_nets
            a.net_name }) := by
  simp only [validateStep, connectPinPhase_known_nets]
  by_cases hn : a.net_name ∈ s.known_nets
  · simp [hn]
  · simp [hn]

/-- A net in the known-nets set survives any validator step that is not a
`rename_net` of that very name. -/
theorem validateStep_known_nets_persist (parts : Catalog)
    (snapshot : Option SnapshotDoc)
    (comps : List (String × SnapshotComponent)) (s : VState) (i : Nat)
    (c : Command) (s2 : VState) (n : String)
    (h : validateStep parts snapshot comps s i c = .ok s2)
    (hn : n ∈ s.known_nets) (hr : renamesFrom n c = false) :
    n ∈ s2.known_nets := by
  cases c with
  | connect a =>
    rw [connect_step_effect] at h
    obtain rfl := Except.ok.inj h
    split
    · rw [connectPinPhase_known_nets]; exact hn
    · simp [connectPinPhase_known_nets, mem_addS, hn]
  | rename_net a =>
    have hne : a.from_ ≠ n := by
      intro e
      simp [renamesFrom, e] at hr
    revert h
    simp only [validateStep]
    repeat' split
    all_goals intro h
    all_goals obtain rfl := Except.ok.inj h
    all_goals try exact hn
    all_goals rw [mem_addS]
    all_goals exact Or.inl (mem_discardS.mpr ⟨hn, hne.symm⟩)
  | disconnect a =>
    revert h
    simp only [validateStep]
    split
    · intro h
      exact Except.noConfusion h
    · rename_i s1 heq
      have h1 : n ∈ s1.known_nets := by
        revert heq
        repeat' split
        all_goals intro heq
        all_goals try (exact Except.noConfusion heq)
        all_goals obtain rfl := Except.ok.inj heq
        all_goals exact hn
      repeat' split
      all_goals intro h
      all_goals obtain rfl := Except.ok.inj h
      all_goals exact h1
  | _ =>
    revert h
    simp only [validateStep]
    repeat' split
    all_goals intro h
    all_goals obtain rfl := Except.ok.inj h
    all_goals first
      | exact hn
      | exact mem_addS.mpr (Or.inl hn)

/-- Known-nets persistence over a command segment containing no
`rename_net` of `n`. -/
theorem validateGo_known_nets_persist (parts : Catalog)
    (snapshot : Option SnapshotDoc)
    (comps : List (String × SnapshotComponent)) :
    ∀ (mid : List Command) (s s2 : VState) (i : Nat) (n : String),
      validateGo parts snapshot comps s i mid = .ok s2 →
      n ∈ s.known_nets → (∀ c ∈ mid, renamesFrom n c = false) →
      n ∈ s2.known_nets := by
  intro mid
  induction mid with
  | nil =>
    intro s s2 i n h hn _
    obtain rfl := Except.ok.inj h
    exact hn
  | cons c rest ih =>
    intro s s2 i n h hn hall
    simp only [validateGo] at h
    cases hs : validateStep parts snapshot comps s i c with
    | error e => rw [hs] at h; simp at h
    | ok s1 =>
      rw [hs] at h
      exact ih s1 s2 (i + 1) n h
        (validateStep_known_nets_persist parts snapshot comps s i c s1 n hs
          hn (hall c (by simp)))
        (fun c2 hc2 => hall c2 (by simp [hc2]))

/-- C10 (amended): a `connect` to a net name not yet known emits exactly
one auto-create warning for it and adds it to the known-nets set; then,
*provided no intervening `rename_net` renames that name away*, a later
`connect` to the same name emits no further auto-create warning, and a
later `create_net` of it emits an "already exists" warning and changes
nothing else.  (Without the proviso the claim fails: see
`c10_counterexample` — `rename_net` removes its `from` name from the
known-nets set.) -/
theorem c10_autocreate_once (parts : Catalog) (snapshot : Option SnapshotDoc)
    (comps : List (String × SnapshotComponent)) (s : VState) (i j : Nat)
    (a : ConnectArgs) (mid : List Command) (s1 s2 : VState)
    (h0 : a.net_name ∉ s.known_nets)
    (h1 : validateStep parts snapshot comps s i (.connect a) = .ok s1)
    (hmid : ∀ c ∈ mid, renamesFrom a.net_name c = false)
    (h2 : validateGo parts snapshot comps s1 (i + 1) mid = .ok s2) :
    countAuto a.net_name s1.warnings =
      countAuto a.net_name s.warnings + 1 ∧
    a.net_name ∈ s1.known_nets ∧
    a.net_name ∈ s2.known_nets ∧
    (∀ b : ConnectArgs, b.net_name = a.net_name → ∀ s3,
      validateStep parts snapshot comps s2 j (.connect b) = .ok s3 →
        countAuto a.net_name s3.warnings =
          countAuto a.net_name s2.warnings) ∧
    validateStep parts snapshot comps s2 j (.create_net ⟨a.net_name⟩) =
      .ok { s2 with warnings := s2.warnings ++
        [.createNetExists j a.net_name] } := by
  rw [connect_step_effect] at h1
  obtain rfl := Except.ok.inj h1
  rw [if_neg h0]
  have hmem1 : a.net_name ∈ (if a.net_name ∈ s.known_nets
      then connectPinPhase parts comps s i a
      else { connectPinPhase parts comps s i a with
        warnings := (connectPinPhase parts comps s i a).warnings ++
          [.connectNetAutoCreate i a.net_name],
        known_nets := addS (connectPinPhase parts comps s i a).known_nets
          a.net_name }).known_nets := by
    rw [if_neg h0]
    simp [mem_addS]
  refine ⟨?_, ?_, ?_, ?_, ?_⟩
  · simp [countAuto, List.countP_append]
    have := connectPinPhase_countAuto parts comps s i a a.net_name
    simp [countAuto] at this
    omega
  · rw [if_neg h0] at hmem1
    exact hmem1
  · exact validateGo_known_nets_persist parts snapshot comps mid _ s2
      (i + 1) a.net_name h2 hmem1 hmid
  · intro b hb s3 h3
    rw [connect_step_effect] at h3
    obtain rfl := Except.ok.inj h3
    have hmem2 : b.net_name ∈ s2.known_nets := by
      rw [hb]
      exact validateGo_known_nets_persist parts snapshot comps mid _ s2
        (i + 1) a.net_name h2 hmem1 hmid
    rw [if_pos hmem2]
    exact connectPinPhase_countAuto parts comps s2 j b a.net_name
  · have hmem2 : a.net_name ∈ s2.known_nets :=
      validateGo_known_nets_persist parts snapshot comps mid _ s2 (i + 1)
        a.net_name h2 hmem1 hmid
    simp only [validateStep]
    rw [if_pos hmem2]

/-- Witness for the amended C10 at a concrete state: the first connect to
`N` warns once and records the net; with an empty middle segment the
second connect adds no auto-create warning and `create_net` warns
"already exists". -/
theorem c10_autocreate_once_witness :
    countAuto "N" c10s1.warnings = countAuto "N" ({} : VState).warnings + 1 ∧
    "N" ∈ c10s1.known_nets ∧
    "N" ∈ c10s1.known_nets ∧
    (∀ b : ConnectArgs, b.net_name = "N" → ∀ s3,
      validateStep [] none [] c10s1 1 (.connect b) = .ok s3 →
        countAuto "N" s3.warnings = countAuto "N" c10s1.warnings) ∧
    validateStep [] none [] c10s1 1 (.create_net ⟨"N"⟩) =
      .ok { c10s1 with
        warnings := c10s1.warnings ++ [.createNetExists 1 "N"] } :=
  c10_autocreate_once [] none [] {} 0 1 ⟨"R1", "1", "N"⟩ [] c10s1 c10s1
    (by simp) (by rfl) (by simp) (by rfl)

/-- C9 (amended, both directions): `set_value` on a known refdes produces
the not-allowed error *exactly when* the owning part can be resolved — a
truthy `part_id` (`resolvedPartId`: from the same-document add, or from
the snapshot component) present in the catalog — and that entry has
`set_value = false`.  The five conjuncts split the complement
exhaustively: disallowed resolved part ⇒ error appended; allowed resolved
part ⇒ unchanged state; resolved part absent from the catalog, empty
(falsy) part id, or no resolvable part id at all ⇒ unchanged state (see
`c9_counterexample` for the last case on a real document). -/
theorem c9_set_value_requires_flag (parts : Catalog)
    (snapshot : Option SnapshotDoc)
    (comps : List (String × SnapshotComponent)) (s : VState) (i : Nat)
    (a : SetValueArgs) (hk : a.refdes ∈ s.known_refdes) :
    (∀ p entry, resolvedPartId s comps a.refdes = some p → p ≠ "" →
      lookupA parts p = some entry → entry.set_value = false →
      validateStep parts snapshot comps s i (.set_value a) =
        .ok { s with errors := s.errors ++ [.setValueNotAllowed i p] }) ∧
    (∀ p entry, resolvedPartId s comps a.refdes = some p → p ≠ "" →
      lookupA parts p = some entry → entry.set_value = true →
      validateStep parts snapshot comps s i (.set_value a) = .ok s) ∧
    (∀ p, resolvedPartId s comps a.refdes = some p →
      lookupA parts p = none →
      validateStep parts snapshot comps s i (.set_value a) = .ok s) ∧
    (resolvedPartId s comps a.refdes = some "" →
      validateStep parts snapshot comps s i (.set_value a) = .ok s) ∧
    (resolvedPartId s comps a.refdes = none →
      validateStep parts snapshot comps s i (.set_value a) = .ok s) := by
  refine ⟨?_, ?_, ?_, ?_, ?_⟩
  · intro p entry hres hne hcat hflag
    simp only [validateStep, if_neg (not_not_intro hk), hres]
    rw [if_pos hne]
    simp [hcat, hflag]
  · intro p entry hres hne hcat hflag
    simp only [validateStep, if_neg (not_not_intro hk), hres]
    rw [if_pos hne]
    simp [hcat, hflag]
  · intro p hres hcat
    simp only [validateStep, if_neg (not_not_intro hk), hres]
    by_cases hne : p = ""
    · simp [hne]
    · rw [if_pos hne]
      simp [hcat]
  · intro hres
    simp only [validateStep, if_neg (not_not_intro hk), hres]
    simp
  · intro hres
    simp only [validateStep, if_neg (not_not_intro hk), hres]

/-- Witness for the amended C9, exercising both directions: a snapshot
component whose `part_id` resolves to a `set_value = false` entry yields
the error; the same component against a `set_value = true` entry yields
no error; a snapshot component without `part_id` yields no error. -/
theorem c9_set_value_requires_flag_witness :
    validateStep [("p", { set_value := false })] none
        [("R9", { refdes := "R9", part_id := some "p" })]
        { known_refdes := ["R9"] } 0 (.set_value ⟨"R9", "120"⟩) =
      .ok { known_refdes := ["R9"],
            errors := [.setValueNotAllowed 0 "p"] } ∧
    validateStep [("p", { set_value := true })] none
        [("R9", { refdes := "R9", part_id := some "p" })]
        { known_refdes := ["R9"] } 0 (.set_value ⟨"R9", "120"⟩) =
      .ok { known_refdes := ["R9"] } ∧
    validateStep [] (some c9snap) [("R9", { refdes := "R9" })]
        { known_refdes := ["R9"] } 0 (.set_value ⟨"R9", "120"⟩) =
      .ok { known_refdes := ["R9"] } :=
  ⟨(c9_set_value_requires_flag [("p", { set_value := false })] none
      [("R9", { refdes := "R9", part_id := some "p" })]
      { known_refdes := ["R9"] } 0 ⟨"R9", "120"⟩ (by simp)).1 "p"
      { set_value := false } (by rfl) (by simp) (by rfl) rfl,
   (c9_set_value_requires_flag [("p", { set_value := true })] none
      [("R9", { refdes := "R9", part_id := some "p" })]
      { known_refdes := ["R9"] } 0 ⟨"R9", "120"⟩ (by simp)).2.1 "p"
      { set_value := true } (by rfl) (by simp) (by rfl) rfl,
   (c9_set_value_requires_flag [] (some c9snap)
      [("R9", { refdes := "R9" })] { known_refdes := ["R9"] } 0
      ⟨"R9", "120"⟩ (by simp)).2.2.2.2 (by rfl)⟩

theorem mem_keys_updA_self {α : Type} (m : List (String × α)) (k : String)
    (v : α) : k ∈ (updA m k v).map Prod.fst := by
  rw [keys_updA]
  split
  · rw [mem_keys_iff_lookupA]
    assumption
  · simp

theorem forall_keys_updA {α : Type} (m : List (String × α)) (k : String)
    (v : α) (r : String) (hm : ∀ p ∈ m, (p : String × α).1 ≠ r)
    (hk : k ≠ r) : ∀ p ∈ updA m k v, p.1 ≠ r := by
  induction m with
  | nil =>
    intro p hp
    simp only [updA, List.mem_singleton] at hp
    rw [hp]
    exact hk
  | cons q rest ih =>
    obtain ⟨k2, v2⟩ := q
    intro p hp
    by_cases h2 : k2 = k
    · simp only [updA, if_pos h2, List.mem_cons] at hp
      rcases hp with rfl | hp2
      · exact hk
      · exact hm p (List.mem_cons_of_mem _ hp2)
    · simp only [updA, if_neg h2, List.mem_cons] at hp
      rcases hp with rfl | hp2
      · exact hm (k2, v2) (by simp)
      · exact ih (fun q hq => hm q (List.mem_cons_of_mem _ hq)) p hp2

/-- Effect of one pass-A step on the pending placement of `a.refdes`,
assuming the only placement command targeting that refdes is
`place_component a` itself. -/
theorem passAStep_explicit_lookup (ep : List (String × Placement))
    (s : PassAState) (c : Command) (a : PlaceComponentArgs)
    (hall : placementTarget c = some a.refdes → c = .place_component a) :
    lookupA (passAStep ep s c).explicit_placements a.refdes =
      (if c = Command.place_component a then
        some { x := a.x, y := a.y, rotation := a.rotation, layer := a.layer }
       else lookupA s.explicit_placements a.refdes) := by
  cases c with
  | place_component b =>
    by_cases hb : b = a
    · subst hb
      rw [if_pos rfl]
      simp [passAStep, lookupA_updA_self]
    · have hbr : b.refdes ≠ a.refdes := by
        intro e
        have h2 := hall (by simp [placementTarget, e])
        exact hb (by injection h2)
      rw [if_neg (fun h => hb (by injection h))]
      simp only [passAStep]
      exact lookupA_updA_ne _ _ _ _ hbr.symm
  | place_near b =>
    have hbr : b.refdes ≠ a.refdes := by
      intro e
      have h2 := hall (by simp [placementTarget, e])
      exact Command.noConfusion h2
    rw [if_neg (fun h => Command.noConfusion h)]
    simp only [passAStep]
    split
    · exact lookupA_updA_ne _ _ _ _ hbr.symm
    · rfl
  | add_component b => rw [if_neg (fun h => Command.noConfusion h)]; rfl
  | remove_component b => rw [if_neg (fun h => Command.noConfusion h)]; rfl
  | create_net b => rw [if_neg (fun h => Command.noConfusion h)]; rfl
  | rename_net b => rw [if_neg (fun h => Command.noConfusion h)]; rfl
  | connect b => rw [if_neg (fun h => Command.noConfusion h)]; rfl
  | disconnect b => rw [if_neg (fun h => Command.noConfusion h)]; rfl
  | set_value b => rw [if_neg (fun h => Command.noConfusion h)]; rfl
  | comment t => rw [if_neg (fun h => Command.noConfusion h)]; rfl

/-- Over the whole pass A, a uniquely-targeted `place_component a`
pins `a.refdes` to its commanded placement. -/
theorem passA_explicit_lookup (ep : List (String × Placement))
    (a : PlaceComponentArgs) :
    ∀ (cmds : List Command) (s : PassAState),
      (∀ c ∈ cmds, placementTarget c = some a.refdes →
        c = .place_component a) →
      (Command.place_component a ∈ cmds ∨
        lookupA s.explicit_placements a.refdes =
          some { x := a.x, y := a.y, rotation := a.rotation,
                 layer := a.layer }) →
      lookupA (cmds.foldl (passAStep ep) s).explicit_placements a.refdes =
        some { x := a.x, y := a.y, rotation := a.rotation,
               layer := a.layer } := by
  intro cmds
  induction cmds with
  | nil =>
    intro s _ hm
    rcases hm with h | h
    · simp at h
    · exact h
  | cons c rest ih =>
    intro s hall hm
    simp only [List.foldl_cons]
    apply ih (passAStep ep s c)
      (fun c2 h2 e => hall c2 (List.mem_cons_of_mem _ h2) e)
    rcases hm with hmem | hsome
    · rcases List.mem_cons.mp hmem with rfl | hmem2
      · right
        rw [passAStep_explicit_lookup ep s _ a (fun _ => rfl), if_pos rfl]
      · left
        exact hmem2
    · right
      rw [passAStep_explicit_lookup ep s c a (hall c (by simp))]
      split
      · rfl
      · exact hsome

theorem passAStep_explicit_nodup (ep : List (String × Placement))
    (s : PassAState) (c : Command)
    (h : (s.explicit_placements.map Prod.fst).Nodup) :
    (((passAStep ep s c).explicit_placements).map Prod.fst).Nodup := by
  cases c with
  | place_component b => exact nodup_keys_updA _ _ _ h
  | place_near b =>
    simp only [passAStep]
    split
    · exact nodup_keys_updA _ _ _ h
    · exact h
  | add_component b => exact h
  | remove_component b => exact h
  | create_net b => exact h
  | rename_net b => exact h
  | connect b => exact h
  | disconnect b => exact h
  | set_value b => exact h
  | comment t => exact h

theorem passA_explicit_nodup (ep : List (String × Placement)) :
    ∀ (cmds : List Command) (s : PassAState),
      (s.explicit_placements.map Prod.fst).Nodup →
      (((cmds.foldl (passAStep ep) s).explicit_placements).map
        Prod.fst).Nodup := by
  intro cmds
  induction cmds with
  | nil => intro s h; exact h
  | cons c rest ih =>
    intro s h
    simp only [List.foldl_cons]
    exact ih _ (passAStep_explicit_nodup ep s c h)

theorem passAStep_new_keys_mono (ep : List (String × Placement))
    (s : PassAState) (c : Command) (r : String)
    (h : r ∈ s.new_components.map Prod.fst) :
    r ∈ (passAStep ep s c).new_components.map Prod.fst := by
  cases c with
  | add_component b =>
    simp only [passAStep]
    rw [keys_updA]
    split
    · exact h
    · simp [h]
  | place_near b =>
    simp only [passAStep]
    split
    · exact h
    · exact h
  | place_component b => exact h
  | remove_component b => exact h
  | create_net b => exact h
  | rename_net b => exact h
  | connect b => exact h
  | disconnect b => exact h
  | set_value b => exact h
  | comment t => exact h

theorem passA_fold_new_keys_mono (ep : List (String × Placement)) :
    ∀ (cmds : List Command) (s : PassAState) (r : String),
      r ∈ s.new_components.map Prod.fst →
      r ∈ (cmds.foldl (passAStep ep) s).new_components.map Prod.fst := by
  intro cmds
  induction cmds with
  | nil => intro s r h; exact h
  | cons c rest ih =>
    intro s r h
    simp only [List.foldl_cons]
    exact ih _ r (passAStep_new_keys_mono ep s c r h)

/-- Every refdes added in the document ends up in pass A's
`new_components` key list. -/
theorem passA_new_keys_of_mem (ep : List (String × Placement))
    (r pid : String) :
    ∀ (cmds : List Command) (s : PassAState),
      Command.add_component { part_id := pid, refdes := r } ∈ cmds →
      r ∈ (cmds.foldl (passAStep ep) s).new_components.map Prod.fst := by
  intro cmds
  induction cmds with
  | nil => intro s h; simp at h
  | cons c rest ih =>
    intro s hmem
    simp only [List.foldl_cons]
    rcases List.mem_cons.mp hmem with rfl | h2
    · exact passA_fold_new_keys_mono ep rest _ r (mem_keys_updA_self _ _ _)
    · exact ih _ h2

theorem placeAllGo_keys (gp : GridPlacer) (r : String) :
    ∀ (parts : List PartToPlace) (occupied : List Rect)
      (positions : List (String × (ℚ × ℚ))) (bx b_y : ℚ)
      (acc : List (String × Placement)),
      (∀ part ∈ parts, part.refdes ≠ r) →
      (∀ p ∈ acc, (p : String × Placement).1 ≠ r) →
      ∀ p ∈ placeAllGo gp occupied positions bx b_y acc parts, p.1 ≠ r := by
  intro parts
  induction parts with
  | nil =>
    intro occupied positions bx b_y acc _ hacc
    exact hacc
  | cons part rest ih =>
    intro occupied positions bx b_y acc hparts hacc
    simp only [placeAllGo]
    exact ih _ _ _ _ _
      (fun q hq => hparts q (List.mem_cons_of_mem _ hq))
      (forall_keys_updA _ _ _ _ hacc (hparts part (by simp)))

theorem auto_conv_fold_none (r : String) :
    ∀ (m2 : List (String × Placement)) (acc : List (String × Placement)),
      (∀ p ∈ m2, (p : String × Placement).1 ≠ r) → lookupA acc r = none →
      lookupA (m2.foldl (fun acc2 p => updA acc2 p.1
        { x := p.2.x, y := p.2.y, rotation := p.2.rotation,
          layer := p.2.layer }) acc) r = none := by
  intro m2
  induction m2 with
  | nil => intro acc _ h; exact h
  | cons q rest ih =>
    intro acc hm hacc
    simp only [List.foldl_cons]
    apply ih
    · exact fun p hp => hm p (List.mem_cons_of_mem _ hp)
    · rw [lookupA_updA_ne _ _ _ _ (fun e => hm q (by simp) e.symm)]
      exact hacc

/-- `auto_place` never produces a placement for a refdes that is already
placed. -/
theorem auto_place_lookup_none (refdes_list : List String) (cat : Catalog)
    (ep : List (String × Placement)) (snap : Option PSnapshot) (r : String)
    (hr : (lookupA ep r).isSome) :
    lookupA (auto_place refdes_list cat ep snap) r = none := by
  simp only [auto_place]
  apply auto_conv_fold_none
  · simp only [place_all]
    apply placeAllGo_keys
    · intro part hpart
      obtain ⟨x, -, hfx⟩ := List.mem_filterMap.mp hpart
      by_cases hx : (lookupA ep x).isSome
      · rw [if_pos hx] at hfx
        exact absurd hfx (by simp)
      · rw [if_neg hx] at hfx
        obtain rfl : _ = part := Option.some.inj hfx
        intro e
        apply hx
        have e2 : x = r := e
        rw [e2]
        exact hr
    · intro p hp
      simp at hp
  · rfl

/-- C8 (amended): a `place_component` is honored with a `PLACE` action
carrying exactly the commanded coordinates when its refdes was *added in
the same document* (and it is the only placement command targeting that
refdes); for a refdes that exists only in the snapshot, the compiler
records the explicit placement but emits no `PLACE` action at all (see
`c8_counterexample`). -/
theorem c8_place_component_honored (doc : CommandsDoc) (parts : Catalog)
    (snapshot : Option SnapshotDoc) (acts : ActionsDoc)
    (warns : List String) (a : PlaceComponentArgs) (pid : String)
    (h : compile_to_actions doc parts snapshot = .ok (acts, warns))
    (hadd : Command.add_component { part_id := pid, refdes := a.refdes } ∈
      doc.commands)
    (huniq : ∀ c ∈ doc.commands, placementTarget c = some a.refdes →
      c = .place_component a)
    (hplace : Command.place_component a ∈ doc.commands) :
    Action.place a.refdes a.x a.y a.rotation a.layer ∈ acts.actions := by
  obtain ⟨vr, -, -, hacts, -⟩ :=
    compile_ok_inv doc parts snapshot acts warns h
  have hexp : lookupA (compilerPassA doc snapshot).explicit_placements
      a.refdes =
      some { x := a.x, y := a.y, rotation := a.rotation,
             layer := a.layer } :=
    passA_explicit_lookup _ a doc.commands _ huniq (Or.inl hplace)
  have hnd : (((compilerPassA doc snapshot).explicit_placements).map
      Prod.fst).Nodup :=
    passA_explicit_nodup _ doc.commands _ (by simp)
  have hall1 : lookupA (updAll (compilerExistingPlacements snapshot)
      (compilerPassA doc snapshot).explicit_placements) a.refdes =
      some { x := a.x, y := a.y, rotation := a.rotation,
             layer := a.layer } :=
    lookupA_updAll_of_mem _ _ _ _ hnd hexp
  have hauto : lookupA (auto_place
      ((compilerPassA doc snapshot).new_components.map Prod.fst) parts
      (updAll (compilerExistingPlacements snapshot)
        (compilerPassA doc snapshot).explicit_placements)
      (snapshot.map dumpSnapshot)) a.refdes = none :=
    auto_place_lookup_none _ _ _ _ _ (by rw [hall1]; rfl)
  have hall2 : lookupA (compilerAllPlacements doc parts snapshot)
      a.refdes =
      some { x := a.x, y := a.y, rotation := a.rotation,
             layer := a.layer } := by
    simp only [compilerAllPlacements]
    rw [lookupA_updAll_of_not_mem _ _ _ hauto]
    exact hall1
  have hkey : a.refdes ∈
      (compilerPassA doc snapshot).new_components.map Prod.fst :=
    passA_new_keys_of_mem _ a.refdes pid doc.commands _ hadd
  have hmem : Action.place a.refdes a.x a.y a.rotation a.layer ∈
      compilerPlaceActs doc parts snapshot := by
    simp only [compilerPlaceActs]
    exact List.mem_filterMap.mpr ⟨a.refdes, hkey, by rw [hall2]; rfl⟩
  rw [hacts]
  show _ ∈ doc.commands.filterMap renameActionOf ++
    doc.commands.filterMap (addActionOf parts) ++
    doc.commands.filterMap setValueActionOf ++
    compilerPlaceActs doc parts snapshot ++
    doc.commands.filterMap
      (connDisActionOf (compilerPassA doc snapshot).net_alias) ++
    doc.commands.filterMap removeActionOf
  simp only [List.mem_append]
  exact Or.inl (Or.inl (Or.inr hmem))

/-- Witness for the amended C8: add `R1` then place it at (30, 40) — the
compiled actions contain `PLACE R1 30 40 0 Top`. -/
theorem c8_place_component_honored_witness :
    Action.place "R1" 30 40 0 Layer.Top ∈
      ({ actions := [.add "ADD RES" "R1", .place "R1" 30 40 0 .Top] } :
        ActionsDoc).actions :=
  c8_place_component_honored c8wdoc resCatalog none _ []
    { refdes := "R1", x := 30, y := 40 } "res"
    (by with_unfolding_all rfl) (by simp [c8wdoc])
    (by
      intro c hc e
      rcases List.mem_cons.mp hc with rfl | hc2
      · simp [placementTarget] at e
      · rcases List.mem_cons.mp hc2 with rfl | hc3
        · rfl
        · simp at hc3)
    (by simp [c8wdoc])

end ElectrifyAI
